import Mathlib

/-!
Verification of the masternode network-address registry subsystem
(`src/evo/netinfo.h`, `src/evo/netinfo.cpp`).

The registry logic (`DomainPort`, `NetInfoEntry`, `MnNetInfo`, `ExtNetInfo`)
is translated directly from the source.  The narrow external collaborator
interfaces the registry consumes (`CService` from `netaddress.h`, `Lookup` /
`SplitHostPort` / `IsBadPort` from `netbase`, and the active chain
parameters) are not part of the excerpted sources; those definitions are
modelled from the specification and are marked as such in their doc
comments.
-/

deriving instance DecidableEq for Except

namespace EvoNetInfo

/-! ## Character and string helpers -/

/-- ASCII lower-casing of a single character, as done by util `ToLower`. -/
def charLower (c : Char) : Char :=
  if 'A' ≤ c ∧ c ≤ 'Z' then Char.ofNat (c.toNat + 32) else c

/-- ASCII lower-casing of a string represented as a character list. -/
def strLower (s : List Char) : List Char := s.map charLower

/-- Splitting on a separator, as done by util `SplitString` (an input with
no separator yields one token; empty tokens are kept). -/
def splitOnChar (sep : Char) : List Char → List (List Char)
  | [] => [[]]
  | c :: rest =>
    let r := splitOnChar sep rest
    if c = sep then [] :: r
    else
      match r with
      | h :: t => (c :: h) :: t
      | [] => [[c]]

/-- Safe characters for an IPv4 literal (`SAFE_CHARS_IPV4` in the source). -/
def SAFE_CHARS_IPV4 : List Char := "1234567890.".data

/-- Safe characters for an IPv4 or IPv6 literal (`SAFE_CHARS_IPV4_6`). -/
def SAFE_CHARS_IPV4_6 : List Char := "abcdefABCDEF1234567890.:[]".data

/-- Safe characters for an RFC1035 domain name (`SAFE_CHARS_RFC1035`). -/
def SAFE_CHARS_RFC1035 : List Char :=
  "abcdefghijklmnopqrstuvwxyzABCDEFGHIJKLMNOPQRSTUVWXYZ0123456789.-".data

/-- The source's `MatchCharsFilter`: every character of `input` occurs in
`filter`. -/
def MatchCharsFilter (input : List Char) (filter : List Char) : Bool :=
  input.all (fun c => filter.contains c)

/-- The TLD blocklist of `HasBadTLD`. -/
def badTLDs : List (List Char) :=
  [".local".data, ".intranet".data, ".internal".data, ".private".data,
   ".corp".data, ".home".data, ".lan".data, ".home.arpa".data,
   ".onion".data, ".i2p".data]

/-- The source's `HasBadTLD`: some blocklisted TLD is a suffix of `str`. -/
def HasBadTLD (str : List Char) : Bool :=
  badTLDs.any (fun tld => tld.isSuffixOf str)

/-- The source's `IsAllowedPlatformHTTPPort`: 80 and 443 are exempt from the
bad-port rule for Platform HTTP domain entries. -/
def IsAllowedPlatformHTTPPort (port : Nat) : Bool :=
  port = 80 ∨ port = 443

/-- Modelled from the spec: `IsBadPort` from netbase (absent from the
excerpt) — "ports below the conventional privileged threshold are
rejected unless they are on a small explicit allow-list". -/
def IsBadPort (port : Nat) : Bool := port < 1024

/-! ## DomainPort -/

/-- Status codes of `DomainPort` validation (`DomainPort::Status`). -/
inductive DPStatus
  | BadChar
  | BadCharPos
  | BadDotless
  | BadLabelCharPos
  | BadLabelLen
  | BadLen
  | BadPort
  | Malformed
  | Success
deriving DecidableEq

/-- A domain-name plus port pair (`class DomainPort`); the default value is
the default-constructed object (empty string, port zero). -/
structure DomainPort where
  m_addr : List Char := []
  m_port : Nat := 0
deriving DecidableEq

/-- The per-label loop of `DomainPort::ValidateDomain`: the first offending
label decides the error. -/
def checkLabels : List (List Char) → DPStatus
  | [] => .Success
  | label :: rest =>
    if label.length = 0 ∨ label.length > 63 then .BadLabelLen
    else if label.head? = some '-' ∨ label.getLast? = some '-' then .BadLabelCharPos
    else checkLabels rest

/-- The source's `DomainPort::ValidateDomain`. -/
def ValidateDomain (addr : List Char) : DPStatus :=
  if addr.length > 253 ∨ addr.length < 4 then .BadLen
  else if ¬ MatchCharsFilter addr SAFE_CHARS_RFC1035 then .BadChar
  else if addr.head? = some '.' ∨ addr.getLast? = some '.' then .BadCharPos
  else
    let labels := splitOnChar '.' addr
    if labels.length < 2 then .BadDotless
    else checkLabels labels

/-- The source's `DomainPort::Set`: on success the stored host is
lower-cased; on failure the object is left untouched. -/
def DomainPort.set (dp : DomainPort) (addr : List Char) (port : Nat) :
    DomainPort × DPStatus :=
  if port = 0 then (dp, .BadPort)
  else
    let ret := ValidateDomain addr
    if ret = .Success then ({ m_addr := strLower addr, m_port := port }, ret)
    else (dp, ret)

/-- The source's `DomainPort::Validate`. -/
def DomainPort.validate (dp : DomainPort) : DPStatus :=
  if dp.m_addr.isEmpty ∨ dp.m_addr ≠ strLower dp.m_addr then .Malformed
  else if dp.m_port = 0 then .BadPort
  else ValidateDomain dp.m_addr

/-- Decimal rendering of a natural number, for `ToStringAddrPort`. -/
def natChars (n : Nat) : List Char := (Nat.repr n).data

/-- The source's `DomainPort::ToStringAddrPort` (`"%s:%d"`). -/
def DomainPort.toStringAddrPort (dp : DomainPort) : List Char :=
  dp.m_addr ++ ':' :: natChars dp.m_port

/-- Strict lexicographic comparison of character lists (the `std::string`
`operator<`). -/
def listCharLt : List Char → List Char → Bool
  | [], [] => false
  | [], _ :: _ => true
  | _ :: _, [] => false
  | a :: as, b :: bs =>
    if a.toNat < b.toNat then true
    else if b.toNat < a.toNat then false
    else listCharLt as bs

/-- The source's `DomainPort::operator<` (`std::tie(m_addr, m_port)`). -/
def DomainPort.lt (a b : DomainPort) : Bool :=
  listCharLt a.m_addr b.m_addr ∨ (a.m_addr = b.m_addr ∧ a.m_port < b.m_port)

/-! ## CService (modelled from the spec) -/

/-- Modelled from the spec: the network family of a socket address
(`netaddress.h` is outside the excerpt).  The spec's kinds are "IPv4, IPv6,
Tor v3, I2P, CJDNS", plus an unrecognized-family case. -/
inductive Net
  | ipv4
  | ipv6
  | torv3
  | i2p
  | cjdns
  | other
deriving DecidableEq

/-- Modelled from the spec: a socket address (`CService` from
`netaddress.h`): a network family, raw address bytes, and a port.  The
default value is the default-constructed `CService` (an all-zero IPv6
address with port zero). -/
structure CService where
  net : Net := .ipv6
  addr : List Nat := List.replicate 16 0
  port : Nat := 0
deriving DecidableEq

/-- Family predicate `CService::IsIPv4`. -/
def CService.isIPv4 (s : CService) : Bool := s.net = .ipv4

/-- Family predicate `CService::IsIPv6` (false for CJDNS, as in the
upstream address model). -/
def CService.isIPv6 (s : CService) : Bool := s.net = .ipv6

/-- Family predicate `CService::IsTor`. -/
def CService.isTor (s : CService) : Bool := s.net = .torv3

/-- Family predicate `CService::IsI2P`. -/
def CService.isI2P (s : CService) : Bool := s.net = .i2p

/-- Family predicate `CService::IsCJDNS`. -/
def CService.isCJDNS (s : CService) : Bool := s.net = .cjdns

/-- Modelled from the spec: `CService::IsValid` — structural validity of
the address (not all-zero, not the broadcast address). -/
def CService.isValid (s : CService) : Bool :=
  match s.net with
  | .ipv4 => s.addr ≠ [0, 0, 0, 0] ∧ s.addr ≠ [255, 255, 255, 255]
  | .ipv6 => s.addr ≠ List.replicate 16 0
  | .cjdns => s.addr ≠ List.replicate 16 0
  | .torv3 => true
  | .i2p => true
  | .other => false

/-- Modelled from the spec: `CService::IsRoutable` — "an address that is
not a private/loopback/reserved-range address". -/
def CService.isRoutable (s : CService) : Bool :=
  s.isValid &&
    match s.net, s.addr with
    | .ipv4, a :: b :: _ =>
      ¬ (a = 0 ∨ a = 10 ∨ a = 127 ∨ a ≥ 224 ∨ (a = 192 ∧ b = 168) ∨
         (a = 169 ∧ b = 254) ∨ (a = 172 ∧ 16 ≤ b ∧ b ≤ 31) ∨
         (a = 100 ∧ 64 ≤ b ∧ b ≤ 127) ∨ (a = 198 ∧ (b = 18 ∨ b = 19)))
    | .ipv6, a :: b :: rest =>
      ¬ (a = 0xfc ∨ a = 0xfd ∨ (a = 0xfe ∧ 0x80 ≤ b ∧ b ≤ 0xbf) ∨
         (a = 0 ∧ b = 0 ∧ rest = List.replicate 13 0 ++ [1]))
    | .torv3, _ => true
    | .i2p, _ => true
    | .cjdns, _ => true
    | _, _ => false

/-- Hexadecimal digits of a group, lower-case, for `ToStringAddrPort`. -/
def hexChars (n : Nat) : List Char := (Nat.toDigits 16 n)

/-- Modelled from the spec: textual `host:port` form of a socket address
(`CService::ToStringAddrPort`), used only as a comparison key between
entries of differing payload variants. -/
def CService.toStringAddrPort (s : CService) : List Char :=
  match s.net, s.addr with
  | .ipv4, [a, b, c, d] =>
    natChars a ++ '.' :: natChars b ++ '.' :: natChars c ++ '.' :: natChars d
      ++ ':' :: natChars s.port
  | _, _ =>
    '[' :: List.intercalate [':'] (s.addr.map (fun b => hexChars b)) ++ ']'
      :: ':' :: natChars s.port

/-- The header's `GetSupportedServiceType`, translated clause for clause
(BIP155 codes: IPv4 `0x01`, IPv6 `0x02`, TorV3 `0x04`, I2P `0x05`;
anything else is the invalid code `0xFF`). -/
def GetSupportedServiceType (service : CService) : Nat :=
  if service.isIPv4 then 0x01
  else if service.isIPv6 && ! service.isCJDNS then 0x02
  else if service.isTor then 0x04
  else if service.isI2P then 0x05
  else 0xFF

/-- The header's `IsSupportedServiceType`. -/
def IsSupportedServiceType (type : Nat) : Bool :=
  type = 0x01 ∨ type = 0x02 ∨ type = 0x04 ∨ type = 0x05

/-- The extension type code `Extensions::DOMAINS`. -/
def DOMAINS : Nat := 0xD0

/-- The header's `IsTypeExtension`. -/
def IsTypeExtension (type : Nat) : Bool := type = DOMAINS

/-- Modelled from the spec: ordering of socket addresses
(`CService::operator<`), by family, then address bytes, then port. -/
def netRank : Net → Nat
  | .other => 0
  | .ipv4 => 1
  | .ipv6 => 2
  | .torv3 => 3
  | .i2p => 4
  | .cjdns => 5

/-- Lexicographic comparison of byte lists. -/
def listNatLt : List Nat → List Nat → Bool
  | [], [] => false
  | [], _ :: _ => true
  | _ :: _, [] => false
  | a :: as, b :: bs =>
    if a < b then true else if b < a then false else listNatLt as bs

/-- Modelled from the spec: `CService::operator<`. -/
def CService.lt (a b : CService) : Bool :=
  if netRank a.net ≠ netRank b.net then netRank a.net < netRank b.net
  else if a.addr ≠ b.addr then listNatLt a.addr b.addr
  else a.port < b.port

/-! ## NetInfoEntry -/

/-- The payload variant of a `NetInfoEntry`
(`std::variant<std::monostate, CService, DomainPort>`). -/
inductive EntryData
  | mono
  | svc (s : CService)
  | dom (d : DomainPort)
deriving DecidableEq

/-- The invalid type code `NetInfoEntry::INVALID_TYPE`. -/
def INVALID_TYPE : Nat := 0xFF

/-- The discriminated-union entry (`class NetInfoEntry`); the default value
is the default-constructed entry (invalid type, empty payload). -/
structure NetInfoEntry where
  m_type : Nat := INVALID_TYPE
  m_data : EntryData := .mono
deriving DecidableEq

/-- The `NetInfoEntry(const CService&)` constructor. -/
def NetInfoEntry.ofService (service : CService) : NetInfoEntry :=
  { m_type := GetSupportedServiceType service, m_data := .svc service }

/-- The `NetInfoEntry(const DomainPort&)` constructor. -/
def NetInfoEntry.ofDomain (service : DomainPort) : NetInfoEntry :=
  { m_type := DOMAINS, m_data := .dom service }

/-- The source's `NetInfoEntry::operator==`: type codes must match and the
payloads must be the same variant with equal values. -/
def entryEq (a b : NetInfoEntry) : Bool :=
  if a.m_type ≠ b.m_type then false
  else
    match a.m_data, b.m_data with
    | .mono, .mono => true
    | .svc x, .svc y => x = y
    | .dom x, .dom y => x = y
    | _, _ => false

/-- The source's `NetInfoEntry::operator<`: by type code first, then by
payload; payloads of differing variants compare by their `ToStringAddrPort`
rendering, and an empty payload sorts below a populated one. -/
def entryLt (a b : NetInfoEntry) : Bool :=
  if a.m_type ≠ b.m_type then a.m_type < b.m_type
  else
    match a.m_data, b.m_data with
    | .svc x, .svc y => CService.lt x y
    | .dom x, .dom y => DomainPort.lt x y
    | .svc x, .dom y => listCharLt x.toStringAddrPort y.toStringAddrPort
    | .dom x, .svc y => listCharLt x.toStringAddrPort y.toStringAddrPort
    | .mono, .mono => false
    | .mono, _ => true
    | _, .mono => false

/-- The source's `NetInfoEntry::GetAddrPort`. -/
def NetInfoEntry.getAddrPort (e : NetInfoEntry) : Option CService :=
  match e.m_data with
  | .svc s => if IsSupportedServiceType e.m_type then some s else none
  | _ => none

/-- The source's `NetInfoEntry::GetDomainPort`. -/
def NetInfoEntry.getDomainPort (e : NetInfoEntry) : Option DomainPort :=
  match e.m_data with
  | .dom d => if IsTypeExtension e.m_type then some d else none
  | _ => none

/-- The source's `NetInfoEntry::GetType`. -/
def NetInfoEntry.getType (e : NetInfoEntry) : Nat := e.m_type

/-- The source's `NetInfoEntry::IsTriviallyValid`: the type code must be
populated and truthful about the payload, and the payload must pass its own
surface-level validity check. -/
def NetInfoEntry.isTriviallyValid (e : NetInfoEntry) : Bool :=
  if e.m_type = INVALID_TYPE then false
  else
    match e.m_data with
    | .mono => false
    | .svc input =>
      (e.m_type = GetSupportedServiceType input) && input.isValid &&
        IsSupportedServiceType e.m_type
    | .dom input =>
      (e.m_type = DOMAINS) && (input.validate = .Success) &&
        IsTypeExtension e.m_type

/-! ## Text resolution (modelled from the spec)

The registries consume the narrow interface
`ResolveLiteral(text, defaultPort, allowDNS=false) -> address?` together
with host/port splitting.  `netbase` is outside the excerpt, so the
definitions below model it from the spec: DNS lookup is disabled, only
literal IPv4 dotted-quads and bracketable IPv6 literals resolve. -/

/-- Decimal digit test. -/
def isDigit (c : Char) : Bool := '0' ≤ c && c ≤ '9'

/-- Value of a decimal digit string (assuming digits only). -/
def digitsToNat (l : List Char) : Nat :=
  l.foldl (fun acc c => acc * 10 + (c.toNat - 48)) 0

/-- Modelled from the spec: `ParseUInt16` — a non-empty all-digit string
whose value fits a 16-bit port. -/
def parseUInt16 (l : List Char) : Option Nat :=
  if l ≠ [] ∧ l.all isDigit ∧ digitsToNat l ≤ 65535 then some (digitsToNat l)
  else none

/-- Bracket stripping of `SplitHostPort`: `"[host]"` becomes `host`. -/
def stripBrackets (l : List Char) : List Char :=
  if l.head? = some '[' ∧ l.getLast? = some ']' ∧ l.length ≥ 2 then
    (l.drop 1).dropLast
  else l

/-- Index of the last colon, if any (`find_last_of`). -/
def lastColonIdx (l : List Char) : Option Nat :=
  match l with
  | [] => none
  | c :: rest =>
    match lastColonIdx rest with
    | some i => some (i + 1)
    | none => if c = ':' then some 0 else none

/-- Modelled from the spec: `SplitHostPort` — split a trailing `:port`
(unless the host is an unbracketed multi-colon IPv6 literal), falling back
to the supplied default port, and strip surrounding brackets. -/
def splitHostPort (input : List Char) (defaultPort : Nat) : List Char × Nat :=
  match lastColonIdx input with
  | none => (stripBrackets input, defaultPort)
  | some colon =>
    let fBracketed := 1 ≤ colon ∧ input.head? = some '[' ∧
      input.get? (colon - 1) = some ']'
    let fMultiColon := 1 ≤ colon ∧ (input.take colon).contains ':'
    if colon = 0 ∨ fBracketed ∨ ¬ fMultiColon then
      match parseUInt16 (input.drop (colon + 1)) with
      | some n => (stripBrackets (input.take colon), n)
      | none => (stripBrackets input, defaultPort)
    else (stripBrackets input, defaultPort)

/-- One octet of a dotted-quad: one to three digits, value at most 255, no
leading zero. -/
def parseOctet (l : List Char) : Option Nat :=
  if l ≠ [] ∧ l.length ≤ 3 ∧ l.all isDigit ∧
      (l.length = 1 ∨ l.head? ≠ some '0') ∧ digitsToNat l ≤ 255 then
    some (digitsToNat l)
  else none

/-- Modelled from the spec: literal IPv4 parsing — four dot-separated
octets. -/
def parseIPv4 (l : List Char) : Option (List Nat) :=
  match splitOnChar '.' l with
  | [p1, p2, p3, p4] =>
    match parseOctet p1, parseOctet p2, parseOctet p3, parseOctet p4 with
    | some a, some b, some c, some d => some [a, b, c, d]
    | _, _, _, _ => none
  | _ => none

/-- Joining tokens back with a separator (the inverse of `splitOnChar`). -/
def joinSep (sep : Char) : List (List Char) → List Char
  | [] => []
  | [p] => p
  | p :: ps => p ++ sep :: joinSep sep ps

/-- Hexadecimal digit test. -/
def isHexDigit (c : Char) : Bool :=
  isDigit c || ('a' ≤ c && c ≤ 'f') || ('A' ≤ c && c ≤ 'F')

/-- Value of a hexadecimal digit. -/
def hexVal (c : Char) : Nat :=
  if isDigit c then c.toNat - 48
  else if 'a' ≤ c && c ≤ 'f' then c.toNat - 87
  else c.toNat - 55

/-- One 16-bit group of an IPv6 literal: one to four hex digits. -/
def parseGroup (l : List Char) : Option Nat :=
  if l ≠ [] ∧ l.length ≤ 4 ∧ l.all isHexDigit then
    some (l.foldl (fun acc c => acc * 16 + hexVal c) 0)
  else none

/-- Big-endian bytes of a list of 16-bit groups. -/
def groupsToBytes (gs : List Nat) : List Nat :=
  gs.flatMap (fun g => [g / 256, g % 256])

/-- Modelled from the spec: literal IPv6 parsing — colon-separated hex
groups with at most one `::` compression (embedded IPv4 forms omitted). -/
def parseIPv6 (l : List Char) : Option (List Nat) :=
  let parts := splitOnChar ':' l
  if parts.count [] = 0 then
    match parts.mapM parseGroup with
    | some gs => if gs.length = 8 then some (groupsToBytes gs) else none
    | none => none
  else
    match parts with
    | [[], [], []] => some (List.replicate 16 0)
    | [] :: [] :: rest =>
      if rest ≠ [] ∧ rest.count [] = 0 then
        match rest.mapM parseGroup with
        | some gs =>
          if gs.length ≤ 7 then
            some (groupsToBytes (List.replicate (8 - gs.length) 0 ++ gs))
          else none
        | none => none
      else none
    | _ =>
      if parts.getLast? = some [] then
        if parts.dropLast.getLast? = some [] ∧
            parts.dropLast.dropLast.count [] = 0 ∧
            parts.dropLast.dropLast ≠ [] then
          match parts.dropLast.dropLast.mapM parseGroup with
          | some gs =>
            if gs.length ≤ 7 then
              some (groupsToBytes (gs ++ List.replicate (8 - gs.length) 0))
            else none
          | none => none
        else none
      else
        if parts.count [] = 1 ∧ parts.head? ≠ some [] then
          let i := parts.findIdx (fun p => p.isEmpty)
          let pre := parts.take i
          let post := parts.drop (i + 1)
          match pre.mapM parseGroup, post.mapM parseGroup with
          | some g1, some g2 =>
            if g1.length + g2.length ≤ 7 then
              some (groupsToBytes
                (g1 ++ List.replicate (8 - g1.length - g2.length) 0 ++ g2))
            else none
          | _, _ => none
        else none

/-- Modelled from the spec: `Lookup(name, portDefault, fAllowLookup=false)`
— literal resolution of an already-split host into a socket address, DNS
disabled. -/
def lookup (addr : List Char) (portDefault : Nat) : Option CService :=
  if addr.contains ':' then
    match parseIPv6 addr with
    | some bytes => some { net := .ipv6, addr := bytes, port := portDefault }
    | none => none
  else
    match parseIPv4 addr with
    | some bytes => some { net := .ipv4, addr := bytes, port := portDefault }
    | none => none

/-! ## Chain parameters (modelled from the spec) -/

/-- Modelled from the spec: the chain-parameter facts the registry
consumes — `IsMainnetActive()`, `DefaultP2PPort()` and
`RequireRoutableAddresses()`. -/
structure ChainParams where
  isMainnet : Bool
  defaultPort : Nat
  requireRoutable : Bool

/-- Modelled from the spec: mainnet's canonical default P2P port
(`MainParams().GetDefaultPort()`). -/
def mainnetDefaultPort : Nat := 9999

/-- The mainnet parameter set. -/
def mainParams : ChainParams :=
  { isMainnet := true, defaultPort := mainnetDefaultPort,
    requireRoutable := true }

/-- A non-mainnet (regtest-like) parameter set: different default port, no
routability requirement. -/
def regParams : ChainParams :=
  { isMainnet := false, defaultPort := 18444, requireRoutable := false }

/-! ## Status codes and purposes -/

/-- The closed status enumeration `NetInfoStatus`. -/
inductive NetInfoStatus
  | Duplicate
  | MaxLimit
  | BadInput
  | BadPort
  | Malformed
  | Success
deriving DecidableEq

/-- The purpose code `Purpose::CORE_P2P`. -/
def CORE_P2P : Nat := 0

/-- The purpose code `Purpose::PLATFORM_P2P`. -/
def PLATFORM_P2P : Nat := 1

/-- The purpose code `Purpose::PLATFORM_HTTP`. -/
def PLATFORM_HTTP : Nat := 2

/-- The header's `IsValidPurpose`. -/
def IsValidPurpose (purpose : Nat) : Bool :=
  purpose = CORE_P2P ∨ purpose = PLATFORM_P2P ∨ purpose = PLATFORM_HTTP

/-- The per-purpose entry limit `EXTNETINFO_ENTRIES_LIMIT`. -/
def EXTNETINFO_ENTRIES_LIMIT : Nat := 32

/-- The current format version `EXTNETINFO_FORMAT_VERSION`. -/
def EXTNETINFO_FORMAT_VERSION : Nat := 1

/-- The primary-eligible entry type `EXTNETINFO_PRIMARY_ADDR_TYPE`
(BIP155 IPv4). -/
def EXTNETINFO_PRIMARY_ADDR_TYPE : Nat := 0x01

/-! ## MnNetInfo -/

/-- The legacy single-slot registry (`class MnNetInfo`); the default value
is the default-constructed (empty) registry. -/
structure MnNetInfo where
  m_addr : NetInfoEntry := {}
deriving DecidableEq

/-- The source's `MnNetInfo::IsEmpty` (`*this == MnNetInfo()`, which
compares the stored entry with `NetInfoEntry::operator==`). -/
def MnNetInfo.isEmpty (st : MnNetInfo) : Bool :=
  entryEq st.m_addr {}

/-- The source's `MnNetInfo::ValidateService`.  Note the port rule is an
`if` / `else if` chain: on mainnet every port other than the canonical one
is rejected, and (in the `else` branch, hence only reachable off mainnet
for the first condition being false) the canonical mainnet port is also
rejected. -/
def mnValidateService (ctx : ChainParams) (service : CService) : NetInfoStatus :=
  if ¬ service.isValid then .BadInput
  else if ¬ service.isIPv4 then .BadInput
  else if ctx.requireRoutable && ¬ service.isRoutable then .BadInput
  else if ctx.isMainnet ∧ service.port ≠ mainnetDefaultPort then .BadPort
  else if service.port = mainnetDefaultPort then .BadPort
  else .Success

/-- The source's `MnNetInfo::AddEntry`, returning the updated registry and
the status code. -/
def mnAddEntry (ctx : ChainParams) (st : MnNetInfo) (purpose : Nat)
    (input : List Char) : MnNetInfo × NetInfoStatus :=
  if purpose ≠ CORE_P2P ∨ ¬ st.isEmpty then (st, .MaxLimit)
  else
    let hp := splitHostPort input ctx.defaultPort
    if ¬ MatchCharsFilter hp.1 SAFE_CHARS_IPV4 then (st, .BadInput)
    else
      match lookup hp.1 hp.2 with
      | some service =>
        let ret := mnValidateService ctx service
        if ret = .Success then
          let candidate := NetInfoEntry.ofService service
          if entryEq candidate st.m_addr then (st, .Duplicate)
          else ({ m_addr := candidate }, ret)
        else (st, ret)
      | none => (st, .BadInput)

/-- The source's `MnNetInfo::GetEntries`. -/
def MnNetInfo.getEntries (st : MnNetInfo) : List NetInfoEntry :=
  if ¬ st.isEmpty then [st.m_addr] else []

/-- The source's `MnNetInfo::GetPrimary` (the empty `CService` sentinel
when no address is stored). -/
def MnNetInfo.getPrimary (st : MnNetInfo) : CService :=
  match st.m_addr.getAddrPort with
  | some service => service
  | none => {}

/-- The source's `MnNetInfo::Validate`. -/
def mnValidate (ctx : ChainParams) (st : MnNetInfo) : NetInfoStatus :=
  if ¬ st.m_addr.isTriviallyValid then .Malformed
  else mnValidateService ctx st.getPrimary

/-! ## ExtNetInfo -/

/-- The extended registry (`class ExtNetInfo`): a format version and a
`std::map` from purpose code to entry list, represented as a
key-sorted association list.  The default value is the default-constructed
registry (current version, empty map). -/
structure ExtNetInfo where
  m_version : Nat := EXTNETINFO_FORMAT_VERSION
  m_data : List (Nat × List NetInfoEntry) := []
deriving DecidableEq

/-- Value lookup in the purpose map (`m_data.find(purpose)`). -/
def findPurpose (m : List (Nat × List NetInfoEntry)) (purpose : Nat) :
    Option (List NetInfoEntry) :=
  (m.find? (fun kv => kv.1 = purpose)).map (fun kv => kv.2)

/-- Appending a candidate to the entry list of an existing key
(`entries.push_back(candidate)` through the map iterator). -/
def mapAppendAt (m : List (Nat × List NetInfoEntry)) (purpose : Nat)
    (candidate : NetInfoEntry) : List (Nat × List NetInfoEntry) :=
  m.map (fun kv => if kv.1 = purpose then (kv.1, kv.2 ++ [candidate]) else kv)

/-- Key-ordered insertion of a fresh key
(`m_data.try_emplace(purpose, ...)`; the key is known to be absent). -/
def mapInsert (m : List (Nat × List NetInfoEntry)) (purpose : Nat)
    (v : List NetInfoEntry) : List (Nat × List NetInfoEntry) :=
  match m with
  | [] => [(purpose, v)]
  | kv :: rest =>
    if purpose < kv.1 then (purpose, v) :: kv :: rest
    else if purpose = kv.1 then kv :: rest
    else kv :: mapInsert rest purpose v

/-- The source's `ExtNetInfo::GetEntries`: all entries across all purposes,
in map iteration order. -/
def ExtNetInfo.getEntries (st : ExtNetInfo) : List NetInfoEntry :=
  (st.m_data.map (fun kv => kv.2)).flatten

/-- The source's `ExtNetInfo::ProcessCandidate`.  The function is only
invoked on candidates that passed validation (the source asserts trivial
validity on entry). -/
def processCandidate (st : ExtNetInfo) (purpose : Nat)
    (candidate : NetInfoEntry) : ExtNetInfo × NetInfoStatus :=
  if st.getEntries.any (fun e => entryEq e candidate) then (st, .Duplicate)
  else if candidate.getType = DOMAINS ∧ purpose ≠ PLATFORM_HTTP then
    (st, .BadInput)
  else
    match findPurpose st.m_data purpose with
    | some entries =>
      if entries.length ≥ EXTNETINFO_ENTRIES_LIMIT then (st, .MaxLimit)
      else
        ({ st with m_data := mapAppendAt st.m_data purpose candidate },
         .Success)
    | none =>
      if (purpose = CORE_P2P ∨ purpose = PLATFORM_P2P) ∧
          candidate.getType ≠ EXTNETINFO_PRIMARY_ADDR_TYPE then
        (st, .BadInput)
      else
        ({ st with m_data := mapInsert st.m_data purpose [candidate] },
         .Success)

/-- The source's `ExtNetInfo::ValidateService`. -/
def extValidateService (ctx : ChainParams) (service : CService) : NetInfoStatus :=
  if ¬ service.isValid then .BadInput
  else if ctx.requireRoutable && ¬ service.isRoutable then .BadInput
  else if ¬ IsSupportedServiceType (GetSupportedServiceType service) then
    .BadInput
  else if IsBadPort service.port ∨ service.port = 0 then .BadPort
  else .Success

/-- The source's `ExtNetInfo::ValidateDomainPort`. -/
def extValidateDomainPort (service : DomainPort) : NetInfoStatus :=
  if (IsBadPort service.m_port ∧ ¬ IsAllowedPlatformHTTPPort service.m_port) ∨
      service.m_port = 0 then .BadPort
  else if service.validate ≠ .Success then .BadInput
  else if HasBadTLD service.m_addr then .BadInput
  else .Success

/-- The candidate-construction part of `ExtNetInfo::AddEntry` (everything
between the purpose check and the call to `ProcessCandidate`; it does not
touch the registry state).  No port is ever implied, so the default port
for splitting is zero. -/
def extCandidate (ctx : ChainParams) (input : List Char) :
    Except NetInfoStatus NetInfoEntry :=
  let hp := splitHostPort input 0
  if ¬ MatchCharsFilter hp.1 SAFE_CHARS_IPV4_6 then
    if ¬ MatchCharsFilter hp.1 SAFE_CHARS_RFC1035 then .error .BadInput
    else
      match DomainPort.set {} hp.1 hp.2 with
      | (service, ret0) =>
        if ret0 = .Success then
          let ret := extValidateDomainPort service
          if ret = .Success then .ok (NetInfoEntry.ofDomain service)
          else .error ret
        else .error .BadInput
  else
    match lookup hp.1 hp.2 with
    | some service =>
      let ret := extValidateService ctx service
      if ret = .Success then .ok (NetInfoEntry.ofService service)
      else .error ret
    | none => .error .BadInput

/-- The source's `ExtNetInfo::AddEntry`: purpose check, candidate
construction and validation, then `ProcessCandidate`. -/
def extAddEntry (ctx : ChainParams) (st : ExtNetInfo) (purpose : Nat)
    (input : List Char) : ExtNetInfo × NetInfoStatus :=
  if ¬ IsValidPurpose purpose then (st, .MaxLimit)
  else
    match extCandidate ctx input with
    | .ok candidate => processCandidate st purpose candidate
    | .error ret => (st, ret)

/-- The source's `ExtNetInfo::GetPrimary`. -/
def ExtNetInfo.getPrimary (st : ExtNetInfo) : CService :=
  match findPurpose st.m_data CORE_P2P with
  | some entries =>
    match entries.head? with
    | some e =>
      match e.getAddrPort with
      | some service => service
      | none => {}
    | none => {}
  | none => {}

/-- The source's `ExtNetInfo::HasEntries`. -/
def ExtNetInfo.hasEntries (st : ExtNetInfo) (purpose : Nat) : Bool :=
  if ¬ IsValidPurpose purpose then false
  else
    match findPurpose st.m_data purpose with
    | some entries => ¬ entries.isEmpty
    | none => false

/-- Entries equivalent under the strict order (two entries a `std::set`
keyed by `operator<` would identify). -/
def entryEquiv (a b : NetInfoEntry) : Bool :=
  ¬ entryLt a b ∧ ¬ entryLt b a

/-- Whether a `std::set` built from the list would be smaller than the
list, i.e. some pair of elements is `entryEquiv`-equivalent. -/
def hasDupEquiv : List NetInfoEntry → Bool
  | [] => false
  | e :: rest => rest.any (fun x => entryEquiv e x) || hasDupEquiv rest

/-- The entry loop of `ExtNetInfo::Validate` over one purpose's list:
`first` is `*entries.begin()`. -/
def validateEntryList (ctx : ChainParams) (purpose : Nat)
    (first : NetInfoEntry) : List NetInfoEntry → NetInfoStatus
  | [] => .Success
  | entry :: rest =>
    if ¬ entry.isTriviallyValid then .Malformed
    else if (purpose = CORE_P2P ∨ purpose = PLATFORM_P2P) ∧
        entryEq entry first ∧ entry.getType ≠ EXTNETINFO_PRIMARY_ADDR_TYPE then
      .Malformed
    else
      match entry.getAddrPort with
      | some service =>
        let ret := extValidateService ctx service
        if ret ≠ .Success then ret
        else validateEntryList ctx purpose first rest
      | none =>
        match entry.getDomainPort with
        | some service =>
          if purpose ≠ PLATFORM_HTTP then .BadInput
          else
            let ret := extValidateDomainPort service
            if ret ≠ .Success then ret
            else validateEntryList ctx purpose first rest
        | none => .Malformed

/-- The purpose loop of `ExtNetInfo::Validate`. -/
def validatePurposes (ctx : ChainParams) :
    List (Nat × List NetInfoEntry) → NetInfoStatus
  | [] => .Success
  | (purpose, entries) :: rest =>
    if ¬ IsValidPurpose purpose then .Malformed
    else
      match entries with
      | [] => .Malformed
      | first :: _ =>
        let ret := validateEntryList ctx purpose first entries
        if ret ≠ .Success then ret
        else validatePurposes ctx rest

/-- The source's `ExtNetInfo::Validate`. -/
def extValidate (ctx : ChainParams) (st : ExtNetInfo) : NetInfoStatus :=
  if st.m_version = 0 ∨ st.m_version > EXTNETINFO_FORMAT_VERSION then
    .Malformed
  else if st.m_data.isEmpty then .Malformed
  else if hasDupEquiv st.getEntries then .Duplicate
  else validatePurposes ctx st.m_data

/-! ## Serialization

Entries serialize as a one-byte type code followed by the payload encoding
(`NetInfoEntry::Serialize` / `Unserialize`); `ExtNetInfo` serializes as a
one-byte version followed (for known versions) by the standard map
encoding.  The payload codecs of the host serializer (`CService`, strings,
compact sizes) live outside the excerpt and are modelled from the spec. -/

/-- Little-endian bytes of a 16-bit value (the host codec's `uint16_t`
encoding). -/
def ser16le (n : Nat) : List Nat := [n % 256, n / 256 % 256]

/-- Big-endian bytes of a 16-bit value (the port encoding inside a
serialized `CService`). -/
def ser16be (n : Nat) : List Nat := [n / 256 % 256, n % 256]

/-- The host codec's compact size encoding. -/
def compactSize (n : Nat) : List Nat :=
  if n < 253 then [n]
  else if n < 65536 then [253, n % 256, n / 256 % 256]
  else [254, n % 256, n / 256 % 256, n / 65536 % 256, n / 16777216 % 256]

/-- Decoder for the compact size encoding. -/
def readCompactSize : List Nat → Option (Nat × List Nat)
  | [] => none
  | b :: rest =>
    if b < 253 then some (b, rest)
    else if b = 253 then
      match rest with
      | x :: y :: r => some (x + 256 * y, r)
      | _ => none
    else if b = 254 then
      match rest with
      | x :: y :: z :: w :: r =>
        some (x + 256 * y + 65536 * z + 16777216 * w, r)
      | _ => none
    else none

/-- The serialized family byte of a socket address (the BIP155 code of a
supported family, the invalid code otherwise). -/
def netByteOf : Net → Nat
  | .ipv4 => 0x01
  | .ipv6 => 0x02
  | .torv3 => 0x04
  | .i2p => 0x05
  | .cjdns => 0xFF
  | .other => 0xFF

/-- The address payload length of each supported family. -/
def addrLenOf : Nat → Option (Net × Nat)
  | 0x01 => some (.ipv4, 4)
  | 0x02 => some (.ipv6, 16)
  | 0x04 => some (.torv3, 32)
  | 0x05 => some (.i2p, 32)
  | _ => none

/-- Modelled from the spec: the encoding of a socket address — the
family's fixed-length address bytes and a big-endian 16-bit port. -/
def serCService (s : CService) : List Nat :=
  netByteOf s.net :: s.addr ++ ser16be s.port

/-- Modelled from the spec: decoder of the socket-address encoding. -/
def deserCService (bytes : List Nat) : Option (CService × List Nat) :=
  match bytes with
  | [] => none
  | b :: rest =>
    match addrLenOf b with
    | none => none
    | some (net, len) =>
      let addr := rest.take len
      if addr.length = len then
        match rest.drop len with
        | p1 :: p2 :: r => some ({ net := net, addr := addr, port := p1 * 256 + p2 }, r)
        | _ => none
      else none

/-- Well-formedness of a socket address as a serializable value: a
supported family, the family's address length, byte-sized address
components and a 16-bit port. -/
def wfCService (s : CService) : Bool :=
  (match addrLenOf (netByteOf s.net) with
   | some (_, len) => s.addr.length = len
   | none => false) &&
  s.addr.all (fun b => b < 256) && s.port < 65536

/-- Serialization of a `DomainPort` (`SERIALIZE_METHODS(DomainPort, obj)`:
the string then the 16-bit port). -/
def serDomainPort (d : DomainPort) : List Nat :=
  compactSize d.m_addr.length ++ d.m_addr.map Char.toNat ++ ser16le d.m_port

/-- A fixed number of bytes decoded into characters. -/
def readChars (n : Nat) (bytes : List Nat) : Option (List Char × List Nat) :=
  let cs := bytes.take n
  if cs.length = n then some (cs.map Char.ofNat, bytes.drop n) else none

/-- Decoder of the `DomainPort` encoding. -/
def deserDomainPort (bytes : List Nat) : Option (DomainPort × List Nat) :=
  match readCompactSize bytes with
  | some (n, rest) =>
    match readChars n rest with
    | some (cs, rest2) =>
      match rest2 with
      | p1 :: p2 :: r => some ({ m_addr := cs, m_port := p1 + 256 * p2 }, r)
      | _ => none
    | none => none
  | none => none

/-- The source's `NetInfoEntry::Serialize`: the type code, then the
payload if the type code agrees with the payload variant, nothing
otherwise. -/
def serNetInfoEntry (e : NetInfoEntry) : List Nat :=
  e.m_type ::
    (match e.m_data with
     | .svc s => if IsSupportedServiceType e.m_type then serCService s else []
     | .dom d => if IsTypeExtension e.m_type then serDomainPort d else []
     | .mono => [])

/-- The source's `NetInfoEntry::Unserialize`: clear, read the type code,
then read the payload the code calls for; an unrecognized code consumes no
further bytes and leaves the payload empty. -/
def deserNetInfoEntry (bytes : List Nat) : Option (NetInfoEntry × List Nat) :=
  match bytes with
  | [] => none
  | t :: rest =>
    if IsSupportedServiceType t then
      match deserCService rest with
      | some (s, r) => some ({ m_type := t, m_data := .svc s }, r)
      | none => none
    else if IsTypeExtension t then
      match deserDomainPort rest with
      | some (d, r) => some ({ m_type := t, m_data := .dom d }, r)
      | none => none
    else some ({ m_type := t, m_data := .mono }, rest)

/-- Serialization of one purpose map entry: key byte, then the standard
vector encoding of the entry list. -/
def serMapEntry (kv : Nat × List NetInfoEntry) : List Nat :=
  kv.1 :: compactSize kv.2.length ++ (kv.2.map serNetInfoEntry).flatten

/-- The source's `ExtNetInfo` serialization (`SERIALIZE_METHODS`): the
version byte, then — only for known versions — the map encoding. -/
def serExtNetInfo (st : ExtNetInfo) : List Nat :=
  st.m_version ::
    (if st.m_version = 0 ∨ st.m_version > EXTNETINFO_FORMAT_VERSION then []
     else compactSize st.m_data.length ++ (st.m_data.map serMapEntry).flatten)

/-- Decoder for a counted sequence of entries. -/
def deserEntrySeq : Nat → List Nat → Option (List NetInfoEntry × List Nat)
  | 0, bytes => some ([], bytes)
  | n + 1, bytes =>
    match deserNetInfoEntry bytes with
    | some (e, r) =>
      match deserEntrySeq n r with
      | some (es, r2) => some (e :: es, r2)
      | none => none
    | none => none

/-- Decoder for a counted sequence of purpose map entries. -/
def deserMapSeq : Nat → List Nat → Option (List (Nat × List NetInfoEntry) × List Nat)
  | 0, bytes => some ([], bytes)
  | n + 1, bytes =>
    match bytes with
    | [] => none
    | k :: rest =>
      match readCompactSize rest with
      | some (m, r) =>
        match deserEntrySeq m r with
        | some (es, r2) =>
          match deserMapSeq n r2 with
          | some (kvs, r3) => some ((k, es) :: kvs, r3)
          | none => none
        | none => none
      | none => none

/-- The source's `ExtNetInfo` deserialization: the version byte is read
first and unknown versions skip the payload, leaving the map empty. -/
def deserExtNetInfo (bytes : List Nat) : Option (ExtNetInfo × List Nat) :=
  match bytes with
  | [] => none
  | v :: rest =>
    if v = 0 ∨ v > EXTNETINFO_FORMAT_VERSION then
      some ({ m_version := v, m_data := [] }, rest)
    else
      match readCompactSize rest with
      | some (n, r) =>
        match deserMapSeq n r with
        | some (m, r2) => some ({ m_version := v, m_data := m }, r2)
        | none => none
      | none => none

/-- A registry holding exactly the per-purpose maximum number of entries
under `CORE_P2P` (thirty-two distinct IPv4 addresses), used as a concrete
state at the cardinality limit. -/
def c4state : ExtNetInfo :=
  { m_version := EXTNETINFO_FORMAT_VERSION,
    m_data := [(CORE_P2P, (List.range EXTNETINFO_ENTRIES_LIMIT).map (fun i =>
      NetInfoEntry.ofService
        { net := .ipv4, addr := [1, 1, 1, i + 1], port := 10000 + i }))] }

/-! ## Shared lemmas -/

/-- Entry equality (`NetInfoEntry::operator==`) is reflexive. -/
theorem entryEq_refl (e : NetInfoEntry) : entryEq e e = true := by
  unfold entryEq
  simp only [ne_eq, not_true_eq_false, if_false]
  cases e.m_data <;> simp

/-- Entry equality (`NetInfoEntry::operator==`) is commutative. -/
theorem entryEq_comm (a b : NetInfoEntry) : entryEq a b = entryEq b a := by
  unfold entryEq
  by_cases h : a.m_type = b.m_type
  · simp only [h, ne_eq, not_true_eq_false, if_false]
    cases a.m_data <;> cases b.m_data <;> simp [eq_comm]
  · simp [h, Ne.symm h]

/-- Failure results of `ExtNetInfo::ProcessCandidate` leave the registry
untouched. -/
theorem processCandidate_fail {st : ExtNetInfo} {purpose : Nat}
    {c : NetInfoEntry} {st' : ExtNetInfo} {r : NetInfoStatus}
    (hpc : processCandidate st purpose c = (st', r)) (hr : r ≠ .Success) :
    st' = st := by
  unfold processCandidate at hpc
  split at hpc
  · exact (Prod.mk.injEq .. ▸ hpc).1.symm
  · split at hpc
    · exact (Prod.mk.injEq .. ▸ hpc).1.symm
    · split at hpc
      · split at hpc
        · exact (Prod.mk.injEq .. ▸ hpc).1.symm
        · exact absurd (Prod.mk.injEq .. ▸ hpc).2.symm hr
      · split at hpc
        · exact (Prod.mk.injEq .. ▸ hpc).1.symm
        · exact absurd (Prod.mk.injEq .. ▸ hpc).2.symm hr

/-- Error results of the candidate-construction phase of
`ExtNetInfo::AddEntry` are never `Success`. -/
theorem extCandidate_error_ne_success {ctx : ChainParams} {input : List Char}
    {r : NetInfoStatus} (h : extCandidate ctx input = .error r) :
    r ≠ .Success := by
  unfold extCandidate at h
  dsimp only at h
  repeat' split at h
  all_goals try (injection h with h2; subst h2)
  all_goals first | assumption | exact Except.noConfusion h | simp

/-- Failure results of `MnNetInfo::AddEntry` leave the registry
untouched. -/
theorem mnAddEntry_fail {ctx : ChainParams} {st : MnNetInfo} {purpose : Nat}
    {input : List Char} {st' : MnNetInfo} {r : NetInfoStatus}
    (h : mnAddEntry ctx st purpose input = (st', r)) (hr : r ≠ .Success) :
    st' = st := by
  unfold mnAddEntry at h
  dsimp only at h
  repeat' split at h
  all_goals injection h with h1 h2
  all_goals subst h2
  all_goals first | exact h1.symm | simp_all

/-- Failure results of `ExtNetInfo::AddEntry` leave the registry
untouched. -/
theorem extAddEntry_fail {ctx : ChainParams} {st : ExtNetInfo} {purpose : Nat}
    {input : List Char} {st' : ExtNetInfo} {r : NetInfoStatus}
    (h : extAddEntry ctx st purpose input = (st', r)) (hr : r ≠ .Success) :
    st' = st := by
  unfold extAddEntry at h
  split at h
  · injection h with h1 h2
    exact h1.symm
  · split at h
    · exact processCandidate_fail h hr
    · injection h with h1 h2
      exact h1.symm

/-! ## Claim C10 -/

/-- C10: `AddEntry` is atomic on failure for both registries — whenever
`MnNetInfo::AddEntry` or `ExtNetInfo::AddEntry` returns a status other
than `Success`, the registry state (hence its version, per-purpose lists,
`GetEntries()`, `GetPrimary()` and `IsEmpty()`) is exactly what it was
before the call. -/
theorem c10_addentry_atomic_on_failure :
    (∀ (ctx : ChainParams) (st : MnNetInfo) (purpose : Nat)
       (input : List Char) (st' : MnNetInfo) (r : NetInfoStatus),
       mnAddEntry ctx st purpose input = (st', r) → r ≠ .Success →
       st' = st) ∧
    (∀ (ctx : ChainParams) (st : ExtNetInfo) (purpose : Nat)
       (input : List Char) (st' : ExtNetInfo) (r : NetInfoStatus),
       extAddEntry ctx st purpose input = (st', r) → r ≠ .Success →
       st' = st) :=
  ⟨fun _ _ _ _ _ _ h hr => mnAddEntry_fail h hr,
   fun _ _ _ _ _ _ h hr => extAddEntry_fail h hr⟩

/-- Witness for C10 at concrete failing inputs: a domain rejected by the
primary registry and a zero-port address rejected by the extended
registry both leave the registry in its prior (empty) state. -/
theorem c10_witness :
    (mnAddEntry regParams {} CORE_P2P "example.com:8888".data).1
      = ({} : MnNetInfo) ∧
    (extAddEntry regParams {} CORE_P2P "1.1.1.1:0".data).1
      = ({} : ExtNetInfo) :=
  ⟨c10_addentry_atomic_on_failure.1 regParams {} CORE_P2P
      "example.com:8888".data _ _ rfl (by decide),
   c10_addentry_atomic_on_failure.2 regParams {} CORE_P2P
      "1.1.1.1:0".data _ _ rfl (by decide)⟩

/-! ## Claim C9 -/

/-- C9: `ExtNetInfo::Validate` reports `Malformed` for every registry that
is empty or whose stored format version is zero or exceeds
`EXTNETINFO_FORMAT_VERSION`; serializing an empty registry and
deserializing the bytes yields a structure whose `Validate` reports
`Malformed`. -/
theorem c9_empty_or_bad_version_malformed :
    (∀ (ctx : ChainParams) (st : ExtNetInfo),
       st.m_data = [] ∨ st.m_version = 0 ∨
         st.m_version > EXTNETINFO_FORMAT_VERSION →
       extValidate ctx st = .Malformed) ∧
    deserExtNetInfo (serExtNetInfo {}) = some (({} : ExtNetInfo), []) ∧
    (∀ ctx : ChainParams, extValidate ctx ({} : ExtNetInfo) = .Malformed) := by
  refine ⟨?_, by decide, fun ctx => rfl⟩
  intro ctx st h
  unfold extValidate
  by_cases hv : st.m_version = 0 ∨ st.m_version > EXTNETINFO_FORMAT_VERSION
  · rw [if_pos hv]
  · rw [if_neg hv]
    have hd : st.m_data = [] := by tauto
    rw [hd]
    simp

/-- Witness for C9: a version-zero empty registry validates as
`Malformed`. -/
theorem c9_witness :
    extValidate regParams { m_version := 0, m_data := [] } = .Malformed :=
  c9_empty_or_bad_version_malformed.1 regParams
    { m_version := 0, m_data := [] } (Or.inl rfl)

/-! ## Claim C7 (corrected) -/

/-- Counterexample to C7 as stated: on a non-mainnet network the input
`"1.1.1.1:0"` resolves to a socket address with port zero (the split
yields port 0 and the stored primary has port 0), yet
`MnNetInfo::AddEntry` returns `Success`, not `BadPort` —
`MnNetInfo::ValidateService` has no zero-port check. -/
theorem c7_counterexample_port_zero_accepted :
    (splitHostPort "1.1.1.1:0".data regParams.defaultPort).2 = 0 ∧
    (mnAddEntry regParams {} CORE_P2P "1.1.1.1:0".data).2 = .Success ∧
    ((mnAddEntry regParams {} CORE_P2P "1.1.1.1:0".data).1.getPrimary).port
      = 0 := by
  refine ⟨by decide, by decide, by decide⟩

/-- C7 as amended: `MnNetInfo::AddEntry` does not specifically reject
zero ports; only on mainnet is a zero-port address rejected with
`BadPort`, as a consequence of the canonical-port rule (zero differs from
the canonical mainnet port), while on other networks a zero-port input
can be accepted. -/
theorem c7_amended_port_zero (ctx : ChainParams) (service : CService)
    (hmain : ctx.isMainnet = true) (hv : service.isValid = true)
    (h4 : service.isIPv4 = true)
    (hroutable : ctx.requireRoutable = true → service.isRoutable = true)
    (hp : service.port = 0) :
    mnValidateService ctx service = .BadPort := by
  have hroute : (ctx.requireRoutable && ¬ service.isRoutable) = false := by
    cases hreq : ctx.requireRoutable
    · simp
    · simp [hroutable hreq]
  simp [mnValidateService, hv, h4, hroute, hmain, hp, mainnetDefaultPort]
  exact hroutable

/-- Witness for the amended C7 at a concrete mainnet address with port
zero. -/
theorem c7_witness :
    mnValidateService mainParams
      { net := .ipv4, addr := [1, 1, 1, 1], port := 0 } = .BadPort :=
  c7_amended_port_zero mainParams
    { net := .ipv4, addr := [1, 1, 1, 1], port := 0 }
    rfl (by decide) (by decide) (fun _ => by decide) rfl

/-! ## Claim C6 -/

/-- C6: the network-dependent port rule of `MnNetInfo`.  On mainnet a
resolved IPv4 address whose port differs from the canonical mainnet port
is rejected with `BadPort`; on any other network a resolved address whose
port equals the canonical mainnet port is rejected with `BadPort`; on a
non-mainnet network `"1.1.1.1:8888"` is accepted while `"1.1.1.1:9999"`
(mainnet's canonical port) is rejected with `BadPort`. -/
theorem c6_network_dependent_port_rule :
    (∀ (ctx : ChainParams) (service : CService),
       ctx.isMainnet = true → service.isValid = true →
       service.isIPv4 = true →
       (ctx.requireRoutable = true → service.isRoutable = true) →
       service.port ≠ mainnetDefaultPort →
       mnValidateService ctx service = .BadPort) ∧
    (∀ (ctx : ChainParams) (service : CService),
       ctx.isMainnet = false → service.isValid = true →
       service.isIPv4 = true →
       (ctx.requireRoutable = true → service.isRoutable = true) →
       service.port = mainnetDefaultPort →
       mnValidateService ctx service = .BadPort) ∧
    (mnAddEntry regParams {} CORE_P2P "1.1.1.1:8888".data).2 = .Success ∧
    (mnAddEntry regParams {} CORE_P2P "1.1.1.1:9999".data).2 = .BadPort := by
  refine ⟨?_, ?_, by decide, by decide⟩
  · intro ctx service hmain hv h4 hroutable hp
    have hroute : (ctx.requireRoutable && ¬ service.isRoutable) = false := by
      cases hreq : ctx.requireRoutable
      · simp
      · simp [hroutable hreq]
    simp [mnValidateService, hv, h4, hroute, hmain, hp]
    exact hroutable
  · intro ctx service hmain hv h4 hroutable hp
    have hroute : (ctx.requireRoutable && ¬ service.isRoutable) = false := by
      cases hreq : ctx.requireRoutable
      · simp
      · simp [hroutable hreq]
    simp [mnValidateService, hv, h4, hroute, hmain, hp]
    exact hroutable

/-- Witness for C6's quantified parts at concrete addresses: port 8888 on
mainnet and port 9999 off mainnet are both rejected. -/
theorem c6_witness :
    mnValidateService mainParams
      { net := .ipv4, addr := [1, 1, 1, 1], port := 8888 } = .BadPort ∧
    mnValidateService regParams
      { net := .ipv4, addr := [1, 1, 1, 1], port := 9999 } = .BadPort :=
  ⟨c6_network_dependent_port_rule.1 mainParams
      { net := .ipv4, addr := [1, 1, 1, 1], port := 8888 }
      rfl (by decide) (by decide) (fun _ => by decide) (by decide),
   c6_network_dependent_port_rule.2.1 regParams
      { net := .ipv4, addr := [1, 1, 1, 1], port := 9999 }
      rfl (by decide) (by decide) (fun _ => by decide) rfl⟩

/-! ## Claim C5 -/

/-- A `Success` from `MnNetInfo::ValidateService` implies the structural
facts it checked on the way. -/
theorem mnValidateService_elim {ctx : ChainParams} {service : CService}
    (h : mnValidateService ctx service = .Success) :
    service.isValid = true ∧ service.isIPv4 = true := by
  unfold mnValidateService at h
  repeat' split at h
  all_goals simp_all

/-- An entry built from a valid IPv4 socket address is trivially valid. -/
theorem ofService_ipv4_triviallyValid {service : CService}
    (hv : service.isValid = true) (h4 : service.isIPv4 = true) :
    (NetInfoEntry.ofService service).isTriviallyValid = true := by
  have ht : GetSupportedServiceType service = 0x01 := by
    simp [GetSupportedServiceType, h4]
  simp [NetInfoEntry.isTriviallyValid, NetInfoEntry.ofService, ht, hv,
    INVALID_TYPE, IsSupportedServiceType]

/-- The stored primary of a registry holding an IPv4-derived entry is that
socket address. -/
theorem getPrimary_ofService {service : CService}
    (h4 : service.isIPv4 = true) :
    (MnNetInfo.mk (NetInfoEntry.ofService service)).getPrimary = service := by
  have ht : GetSupportedServiceType service = 0x01 := by
    simp [GetSupportedServiceType, h4]
  simp [MnNetInfo.getPrimary, NetInfoEntry.getAddrPort, NetInfoEntry.ofService,
    ht, IsSupportedServiceType]

/-- C5: every input accepted by `MnNetInfo::AddEntry` leaves a registry
whose `Validate()` is `Success`; every rejected input applied to an empty
registry leaves `Validate()` reporting `Malformed` (an empty registry is
malformed, not valid-but-empty). -/
theorem c5_mnnetinfo_addentry_validate :
    (∀ (ctx : ChainParams) (st : MnNetInfo) (purpose : Nat)
       (input : List Char),
       (mnAddEntry ctx st purpose input).2 = .Success →
       mnValidate ctx (mnAddEntry ctx st purpose input).1 = .Success) ∧
    (∀ (ctx : ChainParams) (purpose : Nat) (input : List Char),
       (mnAddEntry ctx {} purpose input).2 ≠ .Success →
       mnValidate ctx (mnAddEntry ctx {} purpose input).1 = .Malformed) := by
  constructor
  · intro ctx st purpose input h
    rcases heq : mnAddEntry ctx st purpose input with ⟨st', r⟩
    rw [heq] at h
    dsimp only at h
    subst h
    unfold mnAddEntry at heq
    dsimp only at heq
    repeat' split at heq
    all_goals injection heq with h1 h2
    all_goals first
      | (subst h1
         obtain ⟨hv, h4⟩ := mnValidateService_elim h2
         unfold mnValidate
         rw [getPrimary_ofService h4]
         simp [ofService_ipv4_triviallyValid hv h4, h2])
      | simp_all
  · intro ctx purpose input h
    rcases heq : mnAddEntry ctx {} purpose input with ⟨st', r⟩
    rw [heq] at h
    dsimp only at h ⊢
    rw [mnAddEntry_fail heq h]
    rfl

/-- Witness for C5 at concrete inputs: an accepted address validates as
`Success`; a rejected domain input leaves a `Malformed` (empty)
registry. -/
theorem c5_witness :
    mnValidate regParams
      (mnAddEntry regParams {} CORE_P2P "1.1.1.1:8888".data).1 = .Success ∧
    mnValidate regParams
      (mnAddEntry regParams {} CORE_P2P "example.com:8888".data).1
      = .Malformed :=
  ⟨c5_mnnetinfo_addentry_validate.1 regParams {} CORE_P2P
      "1.1.1.1:8888".data (by decide),
   c5_mnnetinfo_addentry_validate.2 regParams CORE_P2P
      "example.com:8888".data (by decide)⟩

/-! ## Claim C2 -/

/-- A `Success` from `ExtNetInfo::AddEntry` decomposes into a valid
purpose, a successfully built candidate, and a successful
`ProcessCandidate`. -/
theorem extAddEntry_success {ctx : ChainParams} {st : ExtNetInfo} {p : Nat}
    {input : List Char} {st' : ExtNetInfo}
    (h : extAddEntry ctx st p input = (st', .Success)) :
    IsValidPurpose p = true ∧
      ∃ c, extCandidate ctx input = .ok c ∧
        processCandidate st p c = (st', .Success) := by
  unfold extAddEntry at h
  split at h
  · injection h with h1 h2
    exact absurd h2 (by simp)
  · rename_i hp
    split at h
    · rename_i c hc
      exact ⟨by simpa using hp, c, hc, h⟩
    · rename_i r hr
      injection h with h1 h2
      exact absurd h2 (extCandidate_error_ne_success hr)

/-- Appending a candidate under an existing purpose key puts it among the
registry's entries. -/
theorem mem_flatten_mapAppendAt {m : List (Nat × List NetInfoEntry)}
    {p : Nat} {c : NetInfoEntry} {l : List NetInfoEntry}
    (hf : findPurpose m p = some l) :
    c ∈ ((mapAppendAt m p c).map (fun kv => kv.2)).flatten := by
  induction m with
  | nil => simp [findPurpose] at hf
  | cons kv rest ih =>
    by_cases hk : kv.1 = p
    · simp [mapAppendAt, hk]
    · have hf' : findPurpose rest p = some l := by
        simpa [findPurpose, List.find?_cons_of_neg, hk] using hf
      simp only [mapAppendAt, List.map_cons, List.flatten_cons, if_neg hk,
        List.mem_append]
      exact Or.inr (ih hf')

/-- Inserting a fresh purpose key puts its entry among the registry's
entries. -/
theorem mem_flatten_mapInsert {m : List (Nat × List NetInfoEntry)}
    {p : Nat} {c : NetInfoEntry} (hf : findPurpose m p = none) :
    c ∈ ((mapInsert m p [c]).map (fun kv => kv.2)).flatten := by
  induction m with
  | nil => simp [mapInsert]
  | cons kv rest ih =>
    have hk : kv.1 ≠ p := by
      intro he
      simp [findPurpose, List.find?_cons_of_pos, he] at hf
    have hf' : findPurpose rest p = none := by
      simpa [findPurpose, List.find?_cons_of_neg, hk] using hf
    unfold mapInsert
    by_cases h1 : p < kv.1
    · simp [h1]
    · rw [if_neg h1, if_neg (Ne.symm hk)]
      simp only [List.map_cons, List.flatten_cons, List.mem_append]
      exact Or.inr (ih hf')

/-- A candidate accepted by `ProcessCandidate` is among the entries of the
resulting registry. -/
theorem processCandidate_success_mem {st : ExtNetInfo} {p : Nat}
    {c : NetInfoEntry} {st' : ExtNetInfo}
    (h : processCandidate st p c = (st', .Success)) :
    c ∈ st'.getEntries := by
  unfold processCandidate at h
  split at h
  · injection h with h1 h2
    exact absurd h2 (by simp)
  · split at h
    · injection h with h1 h2
      exact absurd h2 (by simp)
    · split at h
      · rename_i entries hfind
        split at h
        · injection h with h1 h2
          exact absurd h2 (by simp)
        · injection h with h1 h2
          subst h1
          exact mem_flatten_mapAppendAt hfind
      · rename_i hfind
        split at h
        · injection h with h1 h2
          exact absurd h2 (by simp)
        · injection h with h1 h2
          subst h1
          exact mem_flatten_mapInsert hfind

/-- A successful `find?` splits the purpose map at the first hit. -/
theorem findPurpose_decomp {m : List (Nat × List NetInfoEntry)} {p : Nat}
    {l : List NetInfoEntry} (hf : findPurpose m p = some l) :
    ∃ pre suf, m = pre ++ (p, l) :: suf ∧ ∀ kv ∈ pre, kv.1 ≠ p := by
  induction m with
  | nil => simp [findPurpose] at hf
  | cons kv rest ih =>
    by_cases hk : kv.1 = p
    · have h2 : kv.2 = l := by
        simpa [findPurpose, List.find?_cons_of_pos, hk] using hf
      refine ⟨[], rest, ?_, by simp⟩
      cases kv
      simp_all
    · obtain ⟨pre, suf, h1, h2⟩ :=
        ih (by simpa [findPurpose, List.find?_cons_of_neg, hk] using hf)
      refine ⟨kv :: pre, suf, by simp [h1], ?_⟩
      intro x hx
      rcases List.mem_cons.mp hx with rfl | hx
      · exact hk
      · exact h2 x hx

/-- Appending at an absent-everywhere-else key rewrites exactly the hit
pair. -/
theorem mapAppendAt_decomp {pre suf : List (Nat × List NetInfoEntry)}
    {p : Nat} {l : List NetInfoEntry} {c : NetInfoEntry}
    (hpre : ∀ kv ∈ pre, kv.1 ≠ p) (hsuf : ∀ kv ∈ suf, kv.1 ≠ p) :
    mapAppendAt (pre ++ (p, l) :: suf) p c = pre ++ (p, l ++ [c]) :: suf := by
  unfold mapAppendAt
  rw [List.map_append, List.map_cons]
  have h1 : pre.map
      (fun kv => if kv.1 = p then (kv.1, kv.2 ++ [c]) else kv) = pre := by
    rw [show pre = pre.map id by simp]
    rw [List.map_map]
    refine List.map_congr_left ?_
    intro kv hkv
    simp [hpre kv (by simpa using hkv)]
  have h2 : suf.map
      (fun kv => if kv.1 = p then (kv.1, kv.2 ++ [c]) else kv) = suf := by
    rw [show suf = suf.map id by simp]
    rw [List.map_map]
    refine List.map_congr_left ?_
    intro kv hkv
    simp [hsuf kv (by simpa using hkv)]
  simp only [h1, h2]
  simp

/-- Inserting an absent key splits the purpose map somewhere, inserting
the fresh pair in between. -/
theorem mapInsert_decomp {m : List (Nat × List NetInfoEntry)} {p : Nat}
    {v : List NetInfoEntry} (hf : findPurpose m p = none) :
    ∃ pre suf, m = pre ++ suf ∧ mapInsert m p v = pre ++ (p, v) :: suf := by
  induction m with
  | nil => exact ⟨[], [], rfl, rfl⟩
  | cons kv rest ih =>
    have hk : kv.1 ≠ p := by
      intro he
      simp [findPurpose, List.find?_cons_of_pos, he] at hf
    have hf' : findPurpose rest p = none := by
      simpa [findPurpose, List.find?_cons_of_neg, hk] using hf
    by_cases h1 : p < kv.1
    · exact ⟨[], kv :: rest, rfl, by simp [mapInsert, h1]⟩
    · obtain ⟨pre, suf, he, hm⟩ := ih hf'
      refine ⟨kv :: pre, suf, by simp [he], ?_⟩
      unfold mapInsert
      rw [if_neg h1, if_neg (Ne.symm hk), hm]
      simp

/-- Inserting an everywhere-fresh entry in the middle preserves pairwise
inequality. -/
theorem pairwise_insert_middle {A B C : List NetInfoEntry} {c : NetInfoEntry}
    (hpw : (A ++ (B ++ C)).Pairwise (fun a b => entryEq a b = false))
    (hfresh : ∀ e ∈ A ++ (B ++ C), entryEq e c = false) :
    (A ++ ((B ++ [c]) ++ C)).Pairwise (fun a b => entryEq a b = false) := by
  rw [List.pairwise_append] at hpw ⊢
  obtain ⟨hA, hBC, hAx⟩ := hpw
  rw [List.pairwise_append] at hBC
  obtain ⟨hB, hC, hBx⟩ := hBC
  refine ⟨hA, ?_, ?_⟩
  · rw [List.pairwise_append]
    refine ⟨?_, hC, ?_⟩
    · rw [List.pairwise_append]
      refine ⟨hB, by simp, ?_⟩
      intro x hx y hy
      rw [List.mem_singleton] at hy
      subst hy
      exact hfresh x (by simp [hx])
    · intro x hx y hy
      rcases List.mem_append.mp hx with hx | hx
      · exact hBx x hx y hy
      · rw [List.mem_singleton] at hx
        subst hx
        rw [entryEq_comm]
        exact hfresh y (by simp [hy])
  · intro x hx y hy
    rcases List.mem_append.mp hy with hy | hy
    · rcases List.mem_append.mp hy with hy | hy
      · exact hAx x hx y (by simp [hy])
      · rw [List.mem_singleton] at hy
        subst hy
        exact hfresh x (by simp [hx])
    · exact hAx x hx y (by simp [hy])

/-- C2: the extended registry rejects duplicates anywhere in the
structure — after a successful `AddEntry`, repeating the same input under
any valid purpose (the same or a different one) returns `Duplicate`, with
the state and the `GetEntries()` cardinality unchanged; moreover
`AddEntry` preserves the invariant that no two stored entries are equal,
for any registry whose purpose keys are distinct. -/
theorem c2_duplicate_rejection :
    (∀ (ctx : ChainParams) (st st' : ExtNetInfo) (p1 p2 : Nat)
       (input : List Char),
       extAddEntry ctx st p1 input = (st', .Success) →
       IsValidPurpose p2 = true →
       extAddEntry ctx st' p2 input = (st', .Duplicate) ∧
       ((extAddEntry ctx st' p2 input).1.getEntries).length
         = st'.getEntries.length) ∧
    (∀ (ctx : ChainParams) (st : ExtNetInfo) (p : Nat) (input : List Char),
       (st.m_data.map Prod.fst).Nodup →
       st.getEntries.Pairwise (fun a b => entryEq a b = false) →
       ((extAddEntry ctx st p input).1.getEntries).Pairwise
         (fun a b => entryEq a b = false)) := by
  constructor
  · intro ctx st st' p1 p2 input h hp2
    obtain ⟨hp1, c, hcand, hproc⟩ := extAddEntry_success h
    have hmem : c ∈ st'.getEntries := processCandidate_success_mem hproc
    have hany : st'.getEntries.any (fun e => entryEq e c) = true :=
      List.any_eq_true.mpr ⟨c, hmem, entryEq_refl c⟩
    have hres : extAddEntry ctx st' p2 input = (st', .Duplicate) := by
      unfold extAddEntry
      rw [if_neg (by simp [hp2]), hcand]
      unfold processCandidate
      dsimp only
      rw [if_pos (by simpa using hany)]
    exact ⟨hres, by rw [hres]⟩
  · intro ctx st p input hkeys hpw
    rcases heq : extAddEntry ctx st p input with ⟨st2, r⟩
    dsimp only
    by_cases hr : r = .Success
    · subst hr
      obtain ⟨hp, c, hcand, hproc⟩ := extAddEntry_success heq
      unfold processCandidate at hproc
      split at hproc
      · injection hproc with h1 h2
        exact absurd h2 (by simp)
      · rename_i hdup
        have hfresh : ∀ e ∈ st.getEntries, entryEq e c = false := by
          intro e he
          by_contra hne
          exact hdup (List.any_eq_true.mpr ⟨e, he, by simpa using hne⟩)
        split at hproc
        · injection hproc with h1 h2
          exact absurd h2 (by simp)
        · split at hproc
          · rename_i entries hfind
            split at hproc
            · injection hproc with h1 h2
              exact absurd h2 (by simp)
            · injection hproc with h1 h2
              subst h1
              obtain ⟨pre, suf, hmeq, hpre⟩ := findPurpose_decomp hfind
              have hsuf : ∀ kv ∈ suf, kv.1 ≠ p := by
                intro kv hkv he
                rw [hmeq] at hkeys
                rw [List.map_append, List.map_cons] at hkeys
                have h3 := (List.nodup_append.mp hkeys).2.1
                rw [List.nodup_cons] at h3
                have h4 : kv.1 ∈ suf.map Prod.fst :=
                  List.mem_map_of_mem Prod.fst hkv
                rw [he] at h4
                exact h3.1 h4
              have hold : st.getEntries
                  = (pre.map (fun kv => kv.2)).flatten ++
                    (entries ++ (suf.map (fun kv => kv.2)).flatten) := by
                rw [ExtNetInfo.getEntries, hmeq]
                simp
              have hnew : (ExtNetInfo.mk st.m_version
                    (mapAppendAt st.m_data p c)).getEntries
                  = (pre.map (fun kv => kv.2)).flatten ++
                    ((entries ++ [c]) ++ (suf.map (fun kv => kv.2)).flatten) := by
                rw [ExtNetInfo.getEntries]
                dsimp only
                rw [hmeq, mapAppendAt_decomp hpre hsuf]
                simp
              rw [hnew]
              exact pairwise_insert_middle (hold ▸ hpw) (hold ▸ hfresh)
          · rename_i hfind
            split at hproc
            · injection hproc with h1 h2
              exact absurd h2 (by simp)
            · injection hproc with h1 h2
              subst h1
              obtain ⟨pre, suf, hmeq, hmins⟩ := @mapInsert_decomp st.m_data p [c] hfind
              have hold : st.getEntries
                  = (pre.map (fun kv => kv.2)).flatten ++
                    ([] ++ (suf.map (fun kv => kv.2)).flatten) := by
                rw [ExtNetInfo.getEntries, hmeq]
                simp
              have hnew : (ExtNetInfo.mk st.m_version
                    (mapInsert st.m_data p [c])).getEntries
                  = (pre.map (fun kv => kv.2)).flatten ++
                    (([] ++ [c]) ++ (suf.map (fun kv => kv.2)).flatten) := by
                rw [ExtNetInfo.getEntries]
                dsimp only
                rw [hmins]
                simp
              rw [hnew]
              exact pairwise_insert_middle (hold ▸ hpw) (hold ▸ hfresh)
    · rw [extAddEntry_fail heq hr]
      exact hpw

/-- Witness for C2 at a concrete input: re-adding `"example.com:8888"`
(first accepted under `PLATFORM_HTTP`) under `CORE_P2P` returns
`Duplicate` and leaves the entry count unchanged. -/
theorem c2_witness :
    extAddEntry regParams
      (extAddEntry regParams {} PLATFORM_HTTP "example.com:8888".data).1
      CORE_P2P "example.com:8888".data
      = ((extAddEntry regParams {} PLATFORM_HTTP "example.com:8888".data).1,
         .Duplicate) :=
  (c2_duplicate_rejection.1 regParams {}
    (extAddEntry regParams {} PLATFORM_HTTP "example.com:8888".data).1
    PLATFORM_HTTP CORE_P2P "example.com:8888".data (by decide) (by decide)).1

/-! ## Claim C3 -/

/-- C3: the first stored entry for `CORE_P2P` or `PLATFORM_P2P` must be
IPv4: `Validate()` reports `Malformed` whenever the first (trivially
valid) entry of such a purpose is not of the primary (IPv4) type; adding
`"[2606:4700:4700::1111]:8888"` as the first `CORE_P2P` entry returns
`BadInput` and leaves the registry empty, while the same address added
after a valid IPv4 first entry returns `Success`. -/
theorem c3_primary_first_entry_ipv4 :
    (∀ (ctx : ChainParams) (p : Nat) (e : NetInfoEntry)
       (rest : List NetInfoEntry),
       p = CORE_P2P ∨ p = PLATFORM_P2P →
       e.isTriviallyValid = true →
       e.getType ≠ EXTNETINFO_PRIMARY_ADDR_TYPE →
       hasDupEquiv (e :: rest) = false →
       extValidate ctx
         { m_version := EXTNETINFO_FORMAT_VERSION,
           m_data := [(p, e :: rest)] } = .Malformed) ∧
    extAddEntry regParams {} CORE_P2P "[2606:4700:4700::1111]:8888".data
      = ({}, .BadInput) ∧
    (extAddEntry regParams
       (extAddEntry regParams {} CORE_P2P "1.1.1.1:8888".data).1
       CORE_P2P "[2606:4700:4700::1111]:8888".data).2 = .Success := by
  refine ⟨?_, by decide, by decide⟩
  intro ctx p e rest hp htv ht hdup
  have hvp : IsValidPurpose p = true := by
    rcases hp with rfl | rfl <;> decide
  unfold extValidate
  rw [if_neg (by simp [EXTNETINFO_FORMAT_VERSION]), if_neg (by simp)]
  have hge : (ExtNetInfo.mk EXTNETINFO_FORMAT_VERSION
      [(p, e :: rest)]).getEntries = e :: rest := by
    simp [ExtNetInfo.getEntries]
  rw [show (ExtNetInfo.mk EXTNETINFO_FORMAT_VERSION
      [(p, e :: rest)]).m_data = [(p, e :: rest)] from rfl]
  rw [hge, if_neg (by simp [hdup])]
  have hinner : validateEntryList ctx p e (e :: rest) = .Malformed := by
    unfold validateEntryList
    rw [if_neg (by simp [htv]), if_pos ⟨hp, entryEq_refl e, ht⟩]
  unfold validatePurposes
  rw [if_neg (by simp [hvp])]
  dsimp only
  rw [hinner]
  simp

/-- Witness for C3's quantified part: a registry whose sole `CORE_P2P`
entry is a (trivially valid) IPv6 address validates as `Malformed`. -/
theorem c3_witness :
    extValidate regParams
      { m_version := EXTNETINFO_FORMAT_VERSION,
        m_data := [(CORE_P2P,
          [NetInfoEntry.ofService
            { net := .ipv6,
              addr := [0x26, 0x06, 0x47, 0, 0x47, 0, 0, 0, 0, 0, 0, 0, 0, 0,
                       0x11, 0x11], port := 8888 }])] } = .Malformed :=
  c3_primary_first_entry_ipv4.1 regParams CORE_P2P
    (NetInfoEntry.ofService
      { net := .ipv6,
        addr := [0x26, 0x06, 0x47, 0, 0x47, 0, 0, 0, 0, 0, 0, 0, 0, 0,
                 0x11, 0x11], port := 8888 })
    [] (Or.inl rfl) (by decide) (by decide) (by decide)

/-! ## Claim C4 -/

/-- C4: the per-purpose cardinality limit — when a purpose's list already
holds `EXTNETINFO_ENTRIES_LIMIT` entries, an otherwise-valid,
non-duplicate `AddEntry` for that purpose returns `MaxLimit` and the
stored count for that purpose stays exactly at the limit. -/
theorem c4_per_purpose_entry_limit :
    ∀ (ctx : ChainParams) (st : ExtNetInfo) (p : Nat) (input : List Char)
      (c : NetInfoEntry) (l : List NetInfoEntry),
      IsValidPurpose p = true →
      extCandidate ctx input = .ok c →
      (st.getEntries.any fun e => entryEq e c) = false →
      ¬ (c.getType = DOMAINS ∧ p ≠ PLATFORM_HTTP) →
      findPurpose st.m_data p = some l →
      l.length = EXTNETINFO_ENTRIES_LIMIT →
      extAddEntry ctx st p input = (st, .MaxLimit) ∧
      findPurpose (extAddEntry ctx st p input).1.m_data p = some l := by
  intro ctx st p input c l hp hc hdup hdom hfind hlen
  have h1 : extAddEntry ctx st p input = (st, .MaxLimit) := by
    unfold extAddEntry
    rw [if_neg (by simp [hp]), hc]
    dsimp only
    unfold processCandidate
    rw [if_neg (by simp [hdup]), if_neg hdom, hfind]
    dsimp only
    rw [if_pos (by omega)]
  exact ⟨h1, by rw [h1]; exact hfind⟩

/-- Witness for C4: with thirty-two IPv4 addresses stored under
`CORE_P2P`, adding a fresh thirty-third returns `MaxLimit` and the state
is unchanged. -/
theorem c4_witness :
    extAddEntry regParams c4state CORE_P2P "1.1.1.33:10033".data
      = (c4state, .MaxLimit) :=
  (c4_per_purpose_entry_limit regParams c4state CORE_P2P
    "1.1.1.33:10033".data
    (NetInfoEntry.ofService
      { net := .ipv4, addr := [1, 1, 1, 33], port := 10033 })
    ((List.range EXTNETINFO_ENTRIES_LIMIT).map (fun i =>
      NetInfoEntry.ofService
        { net := .ipv4, addr := [1, 1, 1, i + 1], port := 10000 + i }))
    (by decide) (by decide) (by decide) (by decide) (by decide)
    (by decide)).1

/-! ## Claim C1 -/

/-- The entry type code derived from a socket address is the address's
family byte. -/
theorem getSupported_eq_netByte (s : CService) :
    GetSupportedServiceType s = netByteOf s.net := by
  cases h : s.net <;>
    simp [GetSupportedServiceType, CService.isIPv4, CService.isIPv6,
      CService.isCJDNS, CService.isTor, CService.isI2P, netByteOf, h]

/-- Decoding inverts encoding for one socket address, given the family
byte resolves to the right family and length. -/
theorem deserCService_core {net : Net} {len : Nat} {addr : List Nat}
    {port : Nat} (rest : List Nat)
    (hb : addrLenOf (netByteOf net) = some (net, len))
    (hlen : addr.length = len) (hport : port < 65536) :
    deserCService (netByteOf net :: addr ++ ser16be port ++ rest)
      = some ({ net := net, addr := addr, port := port }, rest) := by
  rw [show deserCService (netByteOf net :: addr ++ ser16be port ++ rest)
      = (match addrLenOf (netByteOf net) with
         | none => none
         | some (net, len) =>
           let a := (addr ++ ser16be port ++ rest).take len
           if a.length = len then
             match (addr ++ ser16be port ++ rest).drop len with
             | p1 :: p2 :: r =>
               some ({ net := net, addr := a, port := p1 * 256 + p2 }, r)
             | _ => none
           else none) from rfl]
  rw [hb]
  dsimp only
  rw [List.append_assoc, List.take_left' hlen, if_pos hlen,
    List.drop_left' hlen]
  unfold ser16be
  dsimp only [List.cons_append]
  have h2 : port / 256 % 256 * 256 + port % 256 = port := by omega
  rw [h2]
  simp

/-- Round trip of the socket-address codec on well-formed addresses. -/
theorem deserCService_serCService {s : CService} (rest : List Nat)
    (h : wfCService s = true) :
    deserCService (serCService s ++ rest) = some (s, rest) := by
  obtain ⟨net, addr, port⟩ := s
  cases net
  case cjdns => simp [wfCService, netByteOf, addrLenOf] at h
  case other => simp [wfCService, netByteOf, addrLenOf] at h
  all_goals
    simp only [wfCService, netByteOf, addrLenOf, Bool.and_eq_true,
      decide_eq_true_eq] at h
    obtain ⟨⟨hlen, _⟩, hport⟩ := h
    exact deserCService_core rest rfl hlen hport

/-- Round trip of the compact size codec below 2^16. -/
theorem readCompactSize_compactSize {n : Nat} (rest : List Nat)
    (h : n < 65536) :
    readCompactSize (compactSize n ++ rest) = some (n, rest) := by
  unfold compactSize readCompactSize
  by_cases h1 : n < 253
  · simp [h1]
  · rw [if_neg h1, if_pos h]
    dsimp only [List.cons_append]
    rw [if_neg (by omega), if_pos rfl]
    have : n % 256 + 256 * (n / 256 % 256) = n := by omega
    rw [this]
    simp

/-- Round trip of the domain codec: the stored host length fits a
16-bit compact size and the port fits 16 bits. -/
theorem deserDomainPort_serDomainPort {d : DomainPort} (rest : List Nat)
    (hlen : d.m_addr.length < 65536) (hport : d.m_port < 65536) :
    deserDomainPort (serDomainPort d ++ rest) = some (d, rest) := by
  obtain ⟨addr, port⟩ := d
  dsimp only at hlen hport
  unfold serDomainPort deserDomainPort
  dsimp only
  rw [List.append_assoc, List.append_assoc,
    readCompactSize_compactSize _ hlen]
  dsimp only
  unfold readChars
  rw [List.take_left' (by simp), if_pos (by simp),
    List.drop_left' (by simp)]
  dsimp only
  unfold ser16le
  dsimp only [List.cons_append]
  have hmap : (addr.map Char.toNat).map Char.ofNat = addr := by
    rw [List.map_map]
    exact (List.map_congr_left (fun c _ => Char.ofNat_toNat c)).trans
      (List.map_id addr)
  have hp2 : port % 256 + 256 * (port / 256 % 256) = port := by omega
  rw [hmap, hp2]
  simp

/-- A `DomainPort` whose `Validate` succeeds has a host passing
`ValidateDomain`. -/
theorem validate_success_validateDomain {d : DomainPort}
    (h : d.validate = .Success) : ValidateDomain d.m_addr = .Success := by
  unfold DomainPort.validate at h
  split at h
  · exact absurd h (by simp)
  · split at h
    · exact absurd h (by simp)
    · exact h

/-- A host passing `ValidateDomain` has length between 4 and 253. -/
theorem validateDomain_success_len {addr : List Char}
    (h : ValidateDomain addr = .Success) :
    4 ≤ addr.length ∧ addr.length ≤ 253 := by
  by_contra hlen
  rw [ValidateDomain, if_pos (by omega)] at h
  exact absurd h (by simp)

/-- C1: entry serialization round trip — deserializing the serialization
of an entry constructed from a well-formed supported socket address, or
from a valid domain-port pair, consumes exactly the written bytes and
reproduces an entry equal (by `NetInfoEntry::operator==`) to the
original. -/
theorem c1_entry_serialization_roundtrip :
    (∀ service : CService, wfCService service = true →
       deserNetInfoEntry (serNetInfoEntry (NetInfoEntry.ofService service))
         = some (NetInfoEntry.ofService service, []) ∧
       (deserNetInfoEntry
           (serNetInfoEntry (NetInfoEntry.ofService service))).map
         (fun p => entryEq p.1 (NetInfoEntry.ofService service))
         = some true) ∧
    (∀ service : DomainPort, service.m_port < 65536 →
       service.validate = .Success →
       deserNetInfoEntry (serNetInfoEntry (NetInfoEntry.ofDomain service))
         = some (NetInfoEntry.ofDomain service, []) ∧
       (deserNetInfoEntry
           (serNetInfoEntry (NetInfoEntry.ofDomain service))).map
         (fun p => entryEq p.1 (NetInfoEntry.ofDomain service))
         = some true) := by
  constructor
  · intro s hwf
    have hsup : IsSupportedServiceType (netByteOf s.net) = true := by
      rcases hn : s.net
      case cjdns =>
        rw [wfCService, hn] at hwf
        simp [netByteOf, addrLenOf] at hwf
      case other =>
        rw [wfCService, hn] at hwf
        simp [netByteOf, addrLenOf] at hwf
      all_goals decide
    have hser : serNetInfoEntry (NetInfoEntry.ofService s)
        = netByteOf s.net :: serCService s := by
      show GetSupportedServiceType s ::
          (if IsSupportedServiceType (GetSupportedServiceType s) = true then
            serCService s else [])
        = netByteOf s.net :: serCService s
      rw [getSupported_eq_netByte, if_pos hsup]
    have hfst : deserNetInfoEntry (serNetInfoEntry (NetInfoEntry.ofService s))
        = some (NetInfoEntry.ofService s, []) := by
      rw [hser]
      rw [show deserNetInfoEntry (netByteOf s.net :: serCService s)
          = (if IsSupportedServiceType (netByteOf s.net) = true then
               match deserCService (serCService s) with
               | some (sv, r) =>
                 some ({ m_type := netByteOf s.net,
                         m_data := EntryData.svc sv }, r)
               | none => none
             else if IsTypeExtension (netByteOf s.net) = true then
               match deserDomainPort (serCService s) with
               | some (dv, r) =>
                 some ({ m_type := netByteOf s.net,
                         m_data := EntryData.dom dv }, r)
               | none => none
             else some ({ m_type := netByteOf s.net,
                          m_data := EntryData.mono }, serCService s))
          from rfl]
      rw [if_pos hsup,
        show serCService s = serCService s ++ [] from
          (List.append_nil _).symm,
        deserCService_serCService [] hwf]
      unfold NetInfoEntry.ofService
      rw [getSupported_eq_netByte]
    exact ⟨hfst, by rw [hfst]; simp [entryEq_refl]⟩
  · intro d hport hval
    have hlen : d.m_addr.length < 65536 := by
      have := validateDomain_success_len (validate_success_validateDomain hval)
      omega
    have hser : serNetInfoEntry (NetInfoEntry.ofDomain d)
        = DOMAINS :: serDomainPort d := by
      show DOMAINS ::
          (if IsTypeExtension DOMAINS = true then serDomainPort d else [])
        = DOMAINS :: serDomainPort d
      rw [if_pos (by decide)]
    have hfst : deserNetInfoEntry (serNetInfoEntry (NetInfoEntry.ofDomain d))
        = some (NetInfoEntry.ofDomain d, []) := by
      rw [hser]
      rw [show deserNetInfoEntry (DOMAINS :: serDomainPort d)
          = (if IsSupportedServiceType DOMAINS = true then
               match deserCService (serDomainPort d) with
               | some (sv, r) =>
                 some ({ m_type := DOMAINS, m_data := EntryData.svc sv }, r)
               | none => none
             else if IsTypeExtension DOMAINS = true then
               match deserDomainPort (serDomainPort d) with
               | some (dv, r) =>
                 some ({ m_type := DOMAINS, m_data := EntryData.dom dv }, r)
               | none => none
             else some ({ m_type := DOMAINS,
                          m_data := EntryData.mono }, serDomainPort d))
          from rfl]
      rw [if_neg (by decide), if_pos (by decide),
        show serDomainPort d = serDomainPort d ++ [] from
          (List.append_nil _).symm,
        deserDomainPort_serDomainPort [] hlen hport]
      rfl
    exact ⟨hfst, by rw [hfst]; simp [entryEq_refl]⟩

/-- Witness for C1 at concrete entries: an IPv4 socket address and a
valid domain round-trip through the codec. -/
theorem c1_witness :
    deserNetInfoEntry (serNetInfoEntry (NetInfoEntry.ofService
      { net := .ipv4, addr := [1, 1, 1, 1], port := 8888 }))
      = some (NetInfoEntry.ofService
          { net := .ipv4, addr := [1, 1, 1, 1], port := 8888 }, []) ∧
    deserNetInfoEntry (serNetInfoEntry (NetInfoEntry.ofDomain
      { m_addr := "example.com".data, m_port := 443 }))
      = some (NetInfoEntry.ofDomain
          { m_addr := "example.com".data, m_port := 443 }, []) :=
  ⟨(c1_entry_serialization_roundtrip.1
      { net := .ipv4, addr := [1, 1, 1, 1], port := 8888 } (by decide)).1,
   (c1_entry_serialization_roundtrip.2
      { m_addr := "example.com".data, m_port := 443 } (by decide)
      (by decide)).1⟩

/-! ## Claim C8 -/

/-- Domain-safe characters are not colons or brackets. -/
theorem rfc1035_no_specials :
    ∀ c ∈ SAFE_CHARS_RFC1035, ¬ (c = ':' ∨ c = '[' ∨ c = ']') := by decide

/-- A character of a filter-passing string occurs in the filter. -/
theorem matchChars_mem {l f : List Char}
    (h : MatchCharsFilter l f = true) {c : Char} (hc : c ∈ l) : c ∈ f := by
  unfold MatchCharsFilter at h
  rw [List.all_eq_true] at h
  simpa using h c hc

/-- Decimal digits are not dots, hyphens or colons. -/
theorem digit_facts {c : Char} (h : isDigit c = true) :
    c ≠ '.' ∧ c ≠ '-' ∧ c ≠ ':' := by
  refine ⟨?_, ?_, ?_⟩ <;> intro he <;> subst he <;> simp [isDigit] at h

/-- A string without colons has no last-colon index. -/
theorem lastColonIdx_of_no_colon {l : List Char}
    (h : ∀ c ∈ l, c ≠ ':') : lastColonIdx l = none := by
  induction l with
  | nil => rfl
  | cons c rest ih =>
    unfold lastColonIdx
    rw [ih (fun x hx => h x (by simp [hx]))]
    simp [h c (by simp)]

/-- The last colon of `host ++ ":" ++ digits` sits right after the
host. -/
theorem lastColonIdx_append_colon {addr portStr : List Char}
    (h : ∀ c ∈ portStr, c ≠ ':') :
    lastColonIdx (addr ++ ':' :: portStr) = some addr.length := by
  induction addr with
  | nil =>
    rw [List.nil_append]
    simp only [lastColonIdx]
    rw [lastColonIdx_of_no_colon h]
    simp
  | cons c rest ih =>
    rw [List.cons_append]
    simp only [lastColonIdx]
    rw [ih]
    simp

/-- The digits of a successfully parsed port. -/
theorem parseUInt16_digits {l : List Char} {n : Nat}
    (h : parseUInt16 l = some n) : l.all isDigit = true := by
  unfold parseUInt16 at h
  split at h
  · rename_i hc
    exact hc.2.1
  · simp at h

/-- Bracket stripping leaves a domain-safe string untouched. -/
theorem stripBrackets_of_safe {addr : List Char}
    (h : MatchCharsFilter addr SAFE_CHARS_RFC1035 = true) :
    stripBrackets addr = addr := by
  unfold stripBrackets
  cases addr with
  | nil => simp
  | cons c rest =>
    rw [if_neg]
    intro hc
    have h1 : c = '[' := by simpa using hc.1
    exact rfc1035_no_specials c (matchChars_mem h (by simp))
      (Or.inr (Or.inl h1))

/-- Splitting `host:port` where the host is domain-safe and the port
parses yields exactly that host and port. -/
theorem splitHostPort_hostport {addr portStr : List Char} {port : Nat} (dflt : Nat)
    (haddr : MatchCharsFilter addr SAFE_CHARS_RFC1035 = true)
    (hport : parseUInt16 portStr = some port) :
    splitHostPort (addr ++ ':' :: portStr) dflt = (addr, port) := by
  have hnc : ∀ c ∈ addr, c ≠ ':' := fun c hc he =>
    rfc1035_no_specials c (matchChars_mem haddr hc) (Or.inl he)
  have hpd : ∀ c ∈ portStr, c ≠ ':' := by
    intro c hc
    have hd := parseUInt16_digits hport
    rw [List.all_eq_true] at hd
    exact (digit_facts (hd c hc)).2.2
  have htake : (addr ++ ':' :: portStr).take addr.length = addr :=
    List.take_left addr (':' :: portStr)
  have hmc : ((addr ++ ':' :: portStr).take addr.length).contains ':'
      = false := by
    rw [htake]
    by_contra hcon
    rw [Bool.not_eq_false, List.contains_iff_exists_mem_beq] at hcon
    obtain ⟨x, hx, hbeq⟩ := hcon
    have hxc : ':' = x := by simpa using hbeq
    exact hnc x hx hxc.symm
  have hdrop : (addr ++ ':' :: portStr).drop (addr.length + 1) = portStr := by
    exact @List.drop_append _ addr (':' :: portStr) 1
  unfold splitHostPort
  rw [lastColonIdx_append_colon hpd]
  dsimp only
  rw [if_pos]
  · rw [hdrop, hport]
    dsimp only
    rw [htake, stripBrackets_of_safe haddr]
  · refine Or.inr (Or.inr ?_)
    intro hand
    rw [hmc] at hand
    exact Bool.false_ne_true hand.2

/-- Splitting never yields an empty token list. -/
theorem splitOnChar_ne_nil (sep : Char) (l : List Char) :
    splitOnChar sep l ≠ [] := by
  cases l with
  | nil => simp [splitOnChar]
  | cons c rest =>
    unfold splitOnChar
    dsimp only
    split
    · simp
    · split <;> simp

/-- Joining undoes splitting. -/
theorem joinSep_splitOnChar (sep : Char) (l : List Char) :
    joinSep sep (splitOnChar sep l) = l := by
  induction l with
  | nil => rfl
  | cons c rest ih =>
    unfold splitOnChar
    dsimp only
    by_cases hc : c = sep
    · rw [if_pos hc]
      rcases h : splitOnChar sep rest with _ | ⟨p, ps⟩
      · exact absurd h (splitOnChar_ne_nil sep rest)
      · rw [h] at ih
        show [] ++ sep :: joinSep sep (p :: ps) = c :: rest
        rw [List.nil_append, ih, hc]
    · rw [if_neg hc]
      rcases h : splitOnChar sep rest with _ | ⟨p, ps⟩
      · exact absurd h (splitOnChar_ne_nil sep rest)
      · rw [h] at ih
        cases ps with
        | nil => exact congrArg (List.cons c) ih
        | cons q qs =>
          show (c :: p) ++ sep :: joinSep sep (q :: qs) = c :: rest
          rw [List.cons_append]
          exact congrArg (List.cons c) ih

/-- Facts recorded by a successful octet parse. -/
theorem parseOctet_some {l : List Char} {n : Nat}
    (h : parseOctet l = some n) :
    l ≠ [] ∧ l.length ≤ 3 ∧ l.all isDigit = true := by
  unfold parseOctet at h
  split at h
  · rename_i hc
    exact ⟨hc.1, hc.2.1, hc.2.2.1⟩
  · simp at h

/-- The label loop succeeds when every label is well-formed. -/
theorem checkLabels_success {labels : List (List Char)}
    (h : ∀ l ∈ labels, l.length ≠ 0 ∧ l.length ≤ 63 ∧
      l.head? ≠ some '-' ∧ l.getLast? ≠ some '-') :
    checkLabels labels = .Success := by
  induction labels with
  | nil => rfl
  | cons l ls ih =>
    obtain ⟨h1, h2, h3, h4⟩ := h l (by simp)
    unfold checkLabels
    rw [if_neg (by omega), if_neg (by tauto)]
    exact ih (fun x hx => h x (by simp [hx]))

/-- The head and last element of a nonempty all-digit string are
digits. -/
theorem digit_ends {l : List Char} (hd : l.all isDigit = true) :
    (∀ a, l.head? = some a → isDigit a = true) ∧
    (∀ a, l.getLast? = some a → isDigit a = true) := by
  rw [List.all_eq_true] at hd
  constructor
  · intro a ha
    exact hd a (List.mem_of_mem_head? (by simp [ha]))
  · intro a ha
    exact hd a (List.mem_of_mem_getLast? (by simp [ha]))

/-- A string that parses as a dotted-quad IPv4 literal satisfies every
domain rule. -/
theorem parseIPv4_validateDomain {addr : List Char} {bytes : List Nat}
    (hf : MatchCharsFilter addr SAFE_CHARS_RFC1035 = true)
    (hp : parseIPv4 addr = some bytes) :
    ValidateDomain addr = .Success := by
  unfold parseIPv4 at hp
  split at hp
  case h_2 => simp at hp
  rename_i p1 p2 p3 p4 hsplit
  split at hp
  case h_2 => simp at hp
  rename_i a b c d ha hb hc hd
  obtain ⟨h1ne, h1len, h1dig⟩ := parseOctet_some ha
  obtain ⟨h2ne, h2len, h2dig⟩ := parseOctet_some hb
  obtain ⟨h3ne, h3len, h3dig⟩ := parseOctet_some hc
  obtain ⟨h4ne, h4len, h4dig⟩ := parseOctet_some hd
  have hjoin := joinSep_splitOnChar '.' addr
  rw [hsplit] at hjoin
  have haddr : addr = p1 ++ '.' :: (p2 ++ '.' :: (p3 ++ '.' :: p4)) := by
    rw [← hjoin]
    rfl
  have hl1 : 1 ≤ p1.length := List.length_pos.mpr h1ne
  have hl2 : 1 ≤ p2.length := List.length_pos.mpr h2ne
  have hl3 : 1 ≤ p3.length := List.length_pos.mpr h3ne
  have hl4 : 1 ≤ p4.length := List.length_pos.mpr h4ne
  have hlen : addr.length
      = p1.length + p2.length + p3.length + p4.length + 3 := by
    rw [haddr]
    simp
    omega
  have hhead : addr.head? ≠ some '.' := by
    rw [haddr]
    cases p1 with
    | nil => exact absurd rfl h1ne
    | cons x xs =>
      intro hcon
      simp at hcon
      have := (digit_ends h1dig).1 x rfl
      exact (digit_facts this).1 hcon
  have hlast : addr.getLast? ≠ some '.' := by
    rw [haddr]
    intro hcon
    rw [List.getLast?_append, List.getLast?_cons, List.getLast?_append,
      List.getLast?_cons, List.getLast?_append, List.getLast?_cons] at hcon
    rcases hp4 : p4.getLast? with _ | ⟨x⟩
    · rw [List.getLast?_eq_none_iff] at hp4
      exact absurd hp4 h4ne
    · rw [hp4] at hcon
      simp at hcon
      exact (digit_facts ((digit_ends h4dig).2 x hp4)).1 hcon
  unfold ValidateDomain
  rw [if_neg (by omega), if_neg (by simp [hf]),
    if_neg (by rw [not_or]; exact ⟨hhead, hlast⟩)]
  dsimp only
  rw [hsplit]
  rw [if_neg (by simp)]
  apply checkLabels_success
  have hlab : ∀ q : List Char, q ≠ [] → q.length ≤ 3 →
      q.all isDigit = true →
      q.length ≠ 0 ∧ q.length ≤ 63 ∧ q.head? ≠ some '-' ∧
        q.getLast? ≠ some '-' := by
    intro q hne hqlen hdig
    refine ⟨by have := List.length_pos.mpr hne; omega, by omega, ?_, ?_⟩
    · intro hcon
      exact (digit_facts ((digit_ends hdig).1 '-' hcon)).2.1 rfl
    · intro hcon
      exact (digit_facts ((digit_ends hdig).2 '-' hcon)).2.1 rfl
  intro l hl
  have hll : l = p1 ∨ l = p2 ∨ l = p3 ∨ l = p4 := by
    simpa using hl
  rcases hll with rfl | rfl | rfl | rfl
  · exact hlab l h1ne h1len h1dig
  · exact hlab l h2ne h2len h2dig
  · exact hlab l h3ne h3len h3dig
  · exact hlab l h4ne h4len h4dig

/-- A domain-safe string that violates any domain rule is not a literal
IP either. -/
theorem lookup_none_of_bad_domain {addr : List Char} {port : Nat}
    (hf : MatchCharsFilter addr SAFE_CHARS_RFC1035 = true)
    (hnv : ValidateDomain addr ≠ .Success) :
    lookup addr port = none := by
  have hnc : addr.contains ':' = false := by
    by_contra hcon
    rw [Bool.not_eq_false, List.contains_iff_exists_mem_beq] at hcon
    obtain ⟨x, hx, hbeq⟩ := hcon
    have hxc : ':' = x := by simpa using hbeq
    exact rfc1035_no_specials x (matchChars_mem hf hx) (Or.inl hxc.symm)
  unfold lookup
  rw [if_neg (by rw [hnc]; simp)]
  rcases hp : parseIPv4 addr with _ | bytes
  · rfl
  · exact absurd (parseIPv4_validateDomain hf hp) hnv

/-- A `DomainPort::Set` on a rule-violating host never succeeds. -/
theorem set_fail {dp : DomainPort} {addr : List Char} {port : Nat}
    (hnv : ValidateDomain addr ≠ .Success) :
    (DomainPort.set dp addr port).2 ≠ .Success := by
  unfold DomainPort.set
  split
  · simp
  · dsimp only
    split
    · rename_i hv
      exact absurd hv hnv
    · exact hnv

/-- Each blocklisted TLD contains a letter outside the IP-literal
character set. -/
theorem badTLD_has_nonhex_char :
    ∀ tld ∈ badTLDs, ∃ c ∈ tld, c ∉ SAFE_CHARS_IPV4_6 := by decide

/-- A host ending in a blocklisted TLD cannot pass the IP-literal
character filter. -/
theorem hasBadTLD_not_hex {addr : List Char} (h : HasBadTLD addr = true) :
    MatchCharsFilter addr SAFE_CHARS_IPV4_6 = false := by
  unfold HasBadTLD at h
  rw [List.any_eq_true] at h
  obtain ⟨tld, htmem, hsuf⟩ := h
  obtain ⟨c, hc, hnc⟩ := badTLD_has_nonhex_char tld htmem
  have hsuf2 : tld <:+ addr := by simpa using hsuf
  have hcmem : c ∈ addr := hsuf2.subset hc
  by_contra hcon
  rw [Bool.not_eq_false] at hcon
  exact hnc (matchChars_mem hcon hcmem)

/-- A host passing `ValidateDomain` passes the domain character
filter. -/
theorem validateDomain_success_filter {addr : List Char}
    (h : ValidateDomain addr = .Success) :
    MatchCharsFilter addr SAFE_CHARS_RFC1035 = true := by
  by_contra hcon
  have hlen := validateDomain_success_len h
  rw [ValidateDomain, if_neg (by omega), if_pos (by simpa using hcon)] at h
  exact absurd h (by simp)

/-- With hyphen-clean labels, a bad-length label is reported as
`BadLabelLen`. -/
theorem checkLabels_badlen {labels : List (List Char)}
    (hh : ∀ l ∈ labels, l.head? ≠ some '-' ∧ l.getLast? ≠ some '-')
    (hex : ∃ l ∈ labels, l.length = 0 ∨ l.length > 63) :
    checkLabels labels = .BadLabelLen := by
  induction labels with
  | nil => simp at hex
  | cons l ls ih =>
    unfold checkLabels
    by_cases hb : l.length = 0 ∨ l.length > 63
    · rw [if_pos hb]
    · rw [if_neg hb, if_neg (by have := hh l (by simp); tauto)]
      apply ih (fun x hx => hh x (by simp [hx]))
      obtain ⟨x, hx, hbad⟩ := hex
      rcases List.mem_cons.mp hx with rfl | hx
      · exact absurd hbad hb
      · exact ⟨x, hx, hbad⟩

/-- With length-clean labels, a hyphen at a label edge is reported as
`BadLabelCharPos`. -/
theorem checkLabels_badcharpos {labels : List (List Char)}
    (hl : ∀ l ∈ labels, l.length ≠ 0 ∧ l.length ≤ 63)
    (hex : ∃ l ∈ labels, l.head? = some '-' ∨ l.getLast? = some '-') :
    checkLabels labels = .BadLabelCharPos := by
  induction labels with
  | nil => simp at hex
  | cons l ls ih =>
    unfold checkLabels
    rw [if_neg (by have := hl l (by simp); omega)]
    by_cases hb : l.head? = some '-' ∨ l.getLast? = some '-'
    · rw [if_pos hb]
    · rw [if_neg hb]
      apply ih (fun x hx => hl x (by simp [hx]))
      obtain ⟨x, hx, hbad⟩ := hex
      rcases List.mem_cons.mp hx with rfl | hx
      · exact absurd hbad hb
      · exact ⟨x, hx, hbad⟩

/-- Counterexample to C8 as stated: the string
`"[2606:4700:4700::1111]:8888"` violates the domain character rule
(`character outside [A-Za-z0-9.-]`) — the whole string and its
split-off host both fail the domain character filter and draw the
`BadChar` reason — yet `ExtNetInfo::AddEntry(PLATFORM_HTTP, it)`
returns `Success`, not `BadInput`: a host made of IP-literal characters
is resolved as an address literal instead of being validated as a
domain. -/
theorem c8_counterexample_ip_literal_host :
    MatchCharsFilter "[2606:4700:4700::1111]:8888".data
      SAFE_CHARS_RFC1035 = false ∧
    ValidateDomain "[2606:4700:4700::1111]:8888".data = .BadChar ∧
    MatchCharsFilter
      (splitHostPort "[2606:4700:4700::1111]:8888".data 0).1
      SAFE_CHARS_RFC1035 = false ∧
    ValidateDomain (splitHostPort "[2606:4700:4700::1111]:8888".data 0).1
      = .BadChar ∧
    (extAddEntry regParams {} PLATFORM_HTTP
      "[2606:4700:4700::1111]:8888".data).2 = .Success := by
  refine ⟨by decide, by decide, by decide, by decide, by decide⟩

/-- C8 as amended: the RFC1035-derived domain rules.  Each violation is
reported by `DomainPort` validation with its specific reason, following
the source's check priority: length first, then character class, then
dot position, then dotlessness, then per-label length, then per-label
hyphen position.  The `BadInput` guarantee for
`ExtNetInfo::AddEntry(PLATFORM_HTTP, host:port)` holds, whatever the
registry state and port, for every domain-safe host (characters in
`[A-Za-z0-9.-]`) violating any rule, for every host whose characters
fail the IP-literal filter as well as the domain filter, and for a host
that passes the label rules but ends in a blocklisted TLD (also
rejected by `ExtNetInfo::ValidateDomainPort`); it does not extend to
hosts made purely of IP-literal characters, which `AddEntry` treats as
address literals instead (see the counterexample). -/
theorem c8_domain_validation_rules :
    (∀ addr : List Char,
      (addr.length > 253 ∨ addr.length < 4 →
        ValidateDomain addr = .BadLen) ∧
      (¬ (addr.length > 253 ∨ addr.length < 4) →
        MatchCharsFilter addr SAFE_CHARS_RFC1035 = false →
        ValidateDomain addr = .BadChar) ∧
      (¬ (addr.length > 253 ∨ addr.length < 4) →
        MatchCharsFilter addr SAFE_CHARS_RFC1035 = true →
        addr.head? = some '.' ∨ addr.getLast? = some '.' →
        ValidateDomain addr = .BadCharPos) ∧
      (¬ (addr.length > 253 ∨ addr.length < 4) →
        MatchCharsFilter addr SAFE_CHARS_RFC1035 = true →
        ¬ (addr.head? = some '.' ∨ addr.getLast? = some '.') →
        (splitOnChar '.' addr).length < 2 →
        ValidateDomain addr = .BadDotless) ∧
      (¬ (addr.length > 253 ∨ addr.length < 4) →
        MatchCharsFilter addr SAFE_CHARS_RFC1035 = true →
        ¬ (addr.head? = some '.' ∨ addr.getLast? = some '.') →
        ¬ (splitOnChar '.' addr).length < 2 →
        (∀ l ∈ splitOnChar '.' addr,
          l.head? ≠ some '-' ∧ l.getLast? ≠ some '-') →
        (∃ l ∈ splitOnChar '.' addr, l.length = 0 ∨ l.length > 63) →
        ValidateDomain addr = .BadLabelLen) ∧
      (¬ (addr.length > 253 ∨ addr.length < 4) →
        MatchCharsFilter addr SAFE_CHARS_RFC1035 = true →
        ¬ (addr.head? = some '.' ∨ addr.getLast? = some '.') →
        ¬ (splitOnChar '.' addr).length < 2 →
        (∀ l ∈ splitOnChar '.' addr, l.length ≠ 0 ∧ l.length ≤ 63) →
        (∃ l ∈ splitOnChar '.' addr,
          l.head? = some '-' ∨ l.getLast? = some '-') →
        ValidateDomain addr = .BadLabelCharPos)) ∧
    (∀ (ctx : ChainParams) (st : ExtNetInfo) (addr portStr : List Char)
       (port : Nat),
       MatchCharsFilter addr SAFE_CHARS_RFC1035 = true →
       parseUInt16 portStr = some port →
       ValidateDomain addr ≠ .Success →
       extAddEntry ctx st PLATFORM_HTTP (addr ++ ':' :: portStr)
         = (st, .BadInput)) ∧
    (∀ d : DomainPort,
       d.validate = .Success →
       HasBadTLD d.m_addr = true →
       ¬ ((IsBadPort d.m_port = true ∧
           ¬ IsAllowedPlatformHTTPPort d.m_port = true) ∨ d.m_port = 0) →
       extValidateDomainPort d = .BadInput) ∧
    (∀ (ctx : ChainParams) (st : ExtNetInfo) (addr portStr : List Char)
       (port : Nat),
       ValidateDomain addr = .Success →
       addr = strLower addr →
       HasBadTLD addr = true →
       parseUInt16 portStr = some port →
       ¬ ((IsBadPort port = true ∧
           ¬ IsAllowedPlatformHTTPPort port = true) ∨ port = 0) →
       extAddEntry ctx st PLATFORM_HTTP (addr ++ ':' :: portStr)
         = (st, .BadInput)) ∧
    (∀ (ctx : ChainParams) (st : ExtNetInfo) (input : List Char),
       MatchCharsFilter (splitHostPort input 0).1 SAFE_CHARS_IPV4_6
         = false →
       MatchCharsFilter (splitHostPort input 0).1 SAFE_CHARS_RFC1035
         = false →
       extAddEntry ctx st PLATFORM_HTTP input = (st, .BadInput)) := by
  refine ⟨?_, ?_, ?_, ?_, ?_⟩
  · intro addr
    refine ⟨?_, ?_, ?_, ?_, ?_, ?_⟩
    · intro h1
      rw [ValidateDomain, if_pos h1]
    · intro h1 h2
      rw [ValidateDomain, if_neg h1, if_pos (by simp [h2])]
    · intro h1 h2 h3
      rw [ValidateDomain, if_neg h1, if_neg (by simp [h2]), if_pos h3]
    · intro h1 h2 h3 h4
      rw [ValidateDomain, if_neg h1, if_neg (by simp [h2]), if_neg h3]
      dsimp only
      rw [if_pos h4]
    · intro h1 h2 h3 h4 h5 h6
      rw [ValidateDomain, if_neg h1, if_neg (by simp [h2]), if_neg h3]
      dsimp only
      rw [if_neg h4]
      exact checkLabels_badlen h5 h6
    · intro h1 h2 h3 h4 h5 h6
      rw [ValidateDomain, if_neg h1, if_neg (by simp [h2]), if_neg h3]
      dsimp only
      rw [if_neg h4]
      exact checkLabels_badcharpos h5 h6
  · intro ctx st addr portStr port hf hpp hnv
    have hsplit := splitHostPort_hostport 0 hf hpp
    have hcand : extCandidate ctx (addr ++ ':' :: portStr)
        = .error .BadInput := by
      unfold extCandidate
      dsimp only
      rw [hsplit]
      dsimp only
      by_cases hhex : MatchCharsFilter addr SAFE_CHARS_IPV4_6 = true
      · rw [if_neg (by simp [hhex]), lookup_none_of_bad_domain hf hnv]
      · rw [if_pos (by simp [hhex]), if_neg (by simp [hf])]
        rcases hset : DomainPort.set {} addr port with ⟨dp2, r0⟩
        have hr0 : r0 ≠ .Success := by
          have := @set_fail {} addr port hnv
          rw [hset] at this
          exact this
        dsimp only
        rw [if_neg hr0]
    unfold extAddEntry
    rw [if_neg (by decide), hcand]
  · intro d hval htld hgood
    unfold extValidateDomainPort
    rw [if_neg hgood, if_neg (by simp [hval]), if_pos htld]
  · intro ctx st addr portStr port hval hlow htld hpp hgood
    have hf := validateDomain_success_filter hval
    have hsplit := splitHostPort_hostport 0 hf hpp
    have hp0 : port ≠ 0 := fun h0 => hgood (Or.inr h0)
    have hhex : MatchCharsFilter addr SAFE_CHARS_IPV4_6 = false := by
      apply hasBadTLD_not_hex
      exact htld
    have hne : addr ≠ [] := by
      have hl := validateDomain_success_len hval
      intro h0
      rw [h0] at hl
      simp at hl
    have hset : DomainPort.set {} addr port
        = ({ m_addr := strLower addr, m_port := port }, .Success) := by
      unfold DomainPort.set
      rw [if_neg hp0]
      dsimp only
      rw [hval, if_pos rfl]
    have hdv : DomainPort.validate
        { m_addr := strLower addr, m_port := port } = .Success := by
      unfold DomainPort.validate
      dsimp only
      rw [if_neg, if_neg (by simpa using hp0)]
      · rw [← hlow]
        exact hval
      · rw [← hlow]
        rintro (he | hne2)
        · exact hne (by simpa using he)
        · exact hne2 hlow
    have hvdp : extValidateDomainPort
        { m_addr := strLower addr, m_port := port } = .BadInput := by
      unfold extValidateDomainPort
      dsimp only
      rw [if_neg hgood, if_neg (by simp [hdv]),
        if_pos (by rw [← hlow]; exact htld)]
    have hcand : extCandidate ctx (addr ++ ':' :: portStr)
        = .error .BadInput := by
      unfold extCandidate
      dsimp only
      rw [hsplit]
      dsimp only
      rw [if_pos (by simp [hhex]), if_neg (by simp [hf]), hset]
      dsimp only
      rw [if_pos rfl, hvdp]
      rw [if_neg (by simp)]
    unfold extAddEntry
    rw [if_neg (by decide), hcand]
  · intro ctx st input h1 h2
    have hcand : extCandidate ctx input = .error .BadInput := by
      unfold extCandidate
      dsimp only
      rw [if_pos (by simp [h1]), if_pos (by simp [h2])]
    unfold extAddEntry
    rw [if_neg (by decide), hcand]

/-- Witness for C8 at concrete inputs: a dotless host gets the dotless
reason and is rejected by `AddEntry`; `"meows-macbook-pro.local"` (the
blocklisted-TLD scenario) is rejected by the domain validator and by
`AddEntry`; a host failing both character filters is rejected by
`AddEntry` as well. -/
theorem c8_witness :
    ValidateDomain "meow".data = .BadDotless ∧
    extAddEntry regParams {} PLATFORM_HTTP "meow:1234".data
      = ({}, .BadInput) ∧
    extValidateDomainPort
      { m_addr := "meows-macbook-pro.local".data, m_port := 7777 }
      = .BadInput ∧
    extAddEntry regParams {} PLATFORM_HTTP
      "meows-macbook-pro.local:7777".data = ({}, .BadInput) ∧
    extAddEntry regParams {} PLATFORM_HTTP "bad_host.local:7777".data
      = ({}, .BadInput) :=
  ⟨(c8_domain_validation_rules.1 "meow".data).2.2.2.1 (by decide) (by decide)
      (by decide) (by decide),
   c8_domain_validation_rules.2.1 regParams {} "meow".data "1234".data 1234
      (by decide) (by decide) (by decide),
   c8_domain_validation_rules.2.2.1
      { m_addr := "meows-macbook-pro.local".data, m_port := 7777 }
      (by decide) (by decide) (by decide),
   c8_domain_validation_rules.2.2.2.1 regParams {}
      "meows-macbook-pro.local".data "7777".data 7777 (by decide)
      (by decide) (by decide) (by decide) (by decide),
   c8_domain_validation_rules.2.2.2.2 regParams {}
      "bad_host.local:7777".data (by decide) (by decide)⟩

end EvoNetInfo
